import Mathlib

/-!
# Adafruit CC3000 driver: event applier, session controller and socket client

A shallow embedding of `libraries/Adafruit_CC3000/Adafruit_CC3000.cpp`.

* The file-scope variables written by `CC3000_UsynchCallback` are the record `Globals`.
* The chip and the socket layer are an environment `Env`: a deterministic function of the
  history of calls made so far.  Every call the driver makes is appended to a log, so
  "how many commands were issued" is a statement about that log.
* Constants and field types that are declared in headers outside this source file
  (`utility/hci.h`, `Adafruit_CC3000.h`) are parameters.
-/

namespace CC3000

/-! ## Constants defined in the source file -/

/-- `#define MAXSSID (32)`. -/
def MAXSSID : Nat := 32

/-- `#define MAXLENGTHKEY (16)`. -/
def MAXLENGTHKEY : Nat := 16

/-- `#define MAX_SOCKETS 32`. -/
def MAX_SOCKETS : Nat := 32

/-- `#define CC3000_SUCCESS (0)`. -/
def CC3000_SUCCESS : Int := 0

/-! ## Event tags -/

/-- The seven event-type constants `CC3000_UsynchCallback` compares against.  Their values are
given in `utility/hci.h`, which is not part of this source file, so they are a parameter. -/
structure HciTags where
  HCI_EVNT_WLAN_ASYNC_SIMPLE_CONFIG_DONE : Int
  HCI_EVNT_WLAN_UNSOL_CONNECT : Int
  HCI_EVNT_WLAN_UNSOL_DISCONNECT : Int
  HCI_EVNT_WLAN_UNSOL_DHCP : Int
  HCI_EVENT_CC3000_CAN_SHUT_DOWN : Int
  HCI_EVNT_WLAN_ASYNC_PING_REPORT : Int
  HCI_EVNT_BSD_TCP_CLOSE_WAIT : Int
  deriving DecidableEq, Repr

/-- The seven tags, in the order the callback tests them. -/
def HciTags.all (t : HciTags) : List Int :=
  [t.HCI_EVNT_WLAN_ASYNC_SIMPLE_CONFIG_DONE, t.HCI_EVNT_WLAN_UNSOL_CONNECT,
   t.HCI_EVNT_WLAN_UNSOL_DISCONNECT, t.HCI_EVNT_WLAN_UNSOL_DHCP,
   t.HCI_EVENT_CC3000_CAN_SHUT_DOWN, t.HCI_EVNT_WLAN_ASYNC_PING_REPORT,
   t.HCI_EVNT_BSD_TCP_CLOSE_WAIT]

/-- The seven constants are pairwise different (they are distinct event codes). -/
def HciTags.Distinct (t : HciTags) : Prop := t.all.Nodup

instance (t : HciTags) : Decidable t.Distinct := by
  unfold HciTags.Distinct; infer_instance

/-- A concrete assignment of seven different codes, used to instantiate the parameter. -/
def sampleTags : HciTags where
  HCI_EVNT_WLAN_ASYNC_SIMPLE_CONFIG_DONE := 0x8080
  HCI_EVNT_WLAN_UNSOL_CONNECT := 0x8001
  HCI_EVNT_WLAN_UNSOL_DISCONNECT := 0x8002
  HCI_EVNT_WLAN_UNSOL_DHCP := 0x8010
  HCI_EVENT_CC3000_CAN_SHUT_DOWN := 0x0099
  HCI_EVNT_WLAN_ASYNC_PING_REPORT := 0x8040
  HCI_EVNT_BSD_TCP_CLOSE_WAIT := 0x8800

/-! ## Shared state -/

/-- The file-scope variables of the driver.

* `ulCC3000Connected`, `ulCC3000DHCP`, `ulCC3000DHCP_configured`, `ulSmartConfigFinished`,
  `OkToDoShutDown` are the flags `connected`, `dhcpBound`, `dhcpConfigured`,
  `provisioningDone`, `safeToPowerDown` (0 is false, 1 is true).
* `ucStopSmartConfig` is a further private flag of the source file.
* `pingReportnum` is the `uint8_t` report counter, `pingReport` the bytes of the
  `netapp_pingreport_args_t` object.
* `closed_sockets` is the table `boolean closed_sockets[MAX_SOCKETS]`. -/
structure Globals where
  ulSmartConfigFinished : Nat
  ulCC3000Connected : Nat
  ulCC3000DHCP : Nat
  OkToDoShutDown : Nat
  ulCC3000DHCP_configured : Nat
  ucStopSmartConfig : Nat
  pingReportnum : Nat
  pingReport : List Int
  closed_sockets : Fin 32 → Bool

/-- Read `closed_sockets[i]`.  The source indexes the array without a bounds check, so for
`i >= MAX_SOCKETS` the C access is outside the array and has no defined value; the value
`false` given here for that case is a convention of the embedding, and the theorems about
`connected()` are stated for socket ids inside the table. -/
def closedGet (tbl : Fin 32 → Bool) (i : Nat) : Bool :=
  if h : i < 32 then tbl ⟨i, h⟩ else false

/-- Write `closed_sockets[i] = v`.  The source indexes the array without a bounds check, so
for `i >= MAX_SOCKETS` the C store is outside the array and has no defined effect; leaving
the table alone in that case is a convention of the embedding, and the theorems about
`connected()` are stated for socket ids inside the table. -/
def closedSet (tbl : Fin 32 → Bool) (i : Nat) (v : Bool) : Fin 32 → Bool :=
  if h : i < 32 then Function.update tbl ⟨i, h⟩ v else tbl

/-- `memcpy(dst, src, n)` on byte lists: the first `n` bytes of `dst` are replaced by the
first `n` bytes of `src`. -/
def memcpy (dst src : List Int) (n : Nat) : List Int :=
  src.take n ++ dst.drop n

/-- `void CC3000_UsynchCallback(long lEventType, char * data, unsigned char length)`:
seven independent `if` statements, executed in source order.  `data` is the payload as
`char` values; `socketnum = data[0]` converts the first one to `uint8_t`. -/
def CC3000_UsynchCallback (t : HciTags) (g : Globals) (lEventType : Int) (data : List Int)
    (length : Nat) : Globals :=
  let g := if lEventType = t.HCI_EVNT_WLAN_ASYNC_SIMPLE_CONFIG_DONE then
      { g with ulSmartConfigFinished := 1, ucStopSmartConfig := 1 } else g
  let g := if lEventType = t.HCI_EVNT_WLAN_UNSOL_CONNECT then
      { g with ulCC3000Connected := 1 } else g
  let g := if lEventType = t.HCI_EVNT_WLAN_UNSOL_DISCONNECT then
      { g with ulCC3000Connected := 0, ulCC3000DHCP := 0, ulCC3000DHCP_configured := 0 } else g
  let g := if lEventType = t.HCI_EVNT_WLAN_UNSOL_DHCP then
      { g with ulCC3000DHCP := 1 } else g
  let g := if lEventType = t.HCI_EVENT_CC3000_CAN_SHUT_DOWN then
      { g with OkToDoShutDown := 1 } else g
  let g := if lEventType = t.HCI_EVNT_WLAN_ASYNC_PING_REPORT then
      { g with pingReportnum := (g.pingReportnum + 1) % 256,
               pingReport := memcpy g.pingReport data length } else g
  let g := if lEventType = t.HCI_EVNT_BSD_TCP_CLOSE_WAIT then
      let socketnum : Nat := ((data.getD 0 0) % 256).toNat
      if socketnum < MAX_SOCKETS then
        { g with closed_sockets := closedSet g.closed_sockets socketnum true }
      else g
    else g
  g

/-- A state of the globals used to instantiate theorems: all flags clear, no socket closed. -/
def globals0 : Globals where
  ulSmartConfigFinished := 0
  ulCC3000Connected := 0
  ulCC3000DHCP := 0
  OkToDoShutDown := 0
  ulCC3000DHCP_configured := 0
  ucStopSmartConfig := 0
  pingReportnum := 0
  pingReport := List.replicate 20 0
  closed_sockets := fun _ => false

/-! ## The chip and socket layer as an environment -/

/-- Constants used by the session controller whose values are given in headers outside this
source file (`utility/wlan.h`, `utility/nvmem.h`, `utility/hci.h`, `Adafruit_CC3000.h`). -/
structure Consts where
  WIFI_DISABLE : Nat
  WIFI_ENABLE : Nat
  WIFI_STATUS_CONNECTED : Nat
  NVMEM_AES128_KEY_FILEID : Nat
  WLAN_SEC_UNSEC : Int
  WLAN_CONNECT_TIMEOUT : Nat
  HCI_EVNT_WLAN_KEEPALIVE : Nat
  HCI_EVNT_WLAN_UNSOL_INIT : Nat
  deriving DecidableEq, Repr

/-- A concrete choice of the header constants, used to instantiate theorems. -/
def sampleConsts : Consts where
  WIFI_DISABLE := 0
  WIFI_ENABLE := 1
  WIFI_STATUS_CONNECTED := 1
  NVMEM_AES128_KEY_FILEID := 12
  WLAN_SEC_UNSEC := 0
  WLAN_CONNECT_TIMEOUT := 10000
  HCI_EVNT_WLAN_KEEPALIVE := 0x8200
  HCI_EVNT_WLAN_UNSOL_INIT := 0x8004

/-- One call from the driver into the layers below it (chip commands, the Arduino `delay`,
socket primitives), with the arguments the driver passes.  `Serial` output is not a
transport call and is not modelled. -/
inductive Call where
  | wlan_ioctl_set_connection_policy (should_connect_to_open_ap fast_connect profiles : Nat)
  | wlan_ioctl_del_profile (index : Nat)
  | wlan_connect (sec_type : Int) (ssid : List Nat) (ssid_len : Nat) (key : List Nat)
      (key_len : Nat)
  | wlan_disconnect
  | wlan_stop
  | wlan_start (patchReq : Nat)
  | wlan_set_event_mask (mask : Nat)
  | wlan_smart_config_set_pfx (pfx : List Nat)
  | wlan_smart_config_start (encrypted : Nat)
  | wlan_smart_config_process
  | nvmem_create_entry (fileId len : Nat)
  | aes_write_key (key : List Nat)
  | mdnsAdvertiser (mdnsEnabled : Nat) (name : List Nat) (len : Nat)
  | hci_unsolicited_event_handler
  | delay (ms : Nat)
  | send (sd : Int) (payload : List Nat) (len : Nat)
  | recv (sd : Int) (len : Nat)
  | select (nfds : Int) (sd : Int) (usec : Nat)
  | closesocket (sd : Int)
  | socket (domain type protocol : Int)
  | connect (sd : Int) (sa_family : Int) (sa_data : List Nat) (addrlen : Nat)
  | netapp_ping_send (ip attempts size timeout : Nat)
  | wlan_ioctl_set_scan_params (uiEnable uiMinDwellTime uiMaxDwellTime
      uiNumOfProbeRequests uiChannelMask : Nat) (iRSSIThreshold : Int)
      (uiSNRThreshold uiDefaultTxPower : Nat) (aiIntervalList : List Nat)
  | init_spi
  | wlan_init
  deriving DecidableEq, Repr

/-- An unsolicited event frame handed to `CC3000_UsynchCallback`. -/
structure Event where
  lEventType : Int
  data : List Int
  length : Nat
  deriving DecidableEq, Repr

/-- The environment of the driver, as a deterministic function of the calls made so far:
* `reply hist c` is the value call `c` returns after the calls `hist`;
* `rx hist c` is what a `recv` stores into the caller's buffer;
* `async hist c` are the unsolicited events dispatched to the callback while `c` is in
  flight. -/
structure Env where
  reply : List Call → Call → Int
  rx : List Call → Call → List Nat
  async : List Call → Call → List Event

/-- The controller object and the globals, with the log of calls issued so far. -/
structure Sys where
  g : Globals
  _initialised : Bool
  log : List Call

/-- Dispatch a list of events to the callback, in arrival order. -/
def deliver (t : HciTags) (g : Globals) (evs : List Event) : Globals :=
  evs.foldl (fun g e => CC3000_UsynchCallback t g e.lEventType e.data e.length) g

/-- A chip command or `delay`: the call is logged, the events that arrive while it is in
flight are applied, and the environment's return value is handed back. -/
def issue (E : Env) (t : HciTags) (s : Sys) (c : Call) : Int × Sys :=
  (E.reply s.log c, { s with g := deliver t s.g (E.async s.log c), log := s.log ++ [c] })

/-- A socket primitive: the call is logged and the environment's return value handed back.
Socket primitives are atomic with respect to unsolicited events. -/
def sockcall (E : Env) (s : Sys) (c : Call) : Int × Sys :=
  (E.reply s.log c, { s with log := s.log ++ [c] })

/-- Sum of the arguments of the `delay` calls in a log, in milliseconds. -/
def delaySum : List Call → Nat
  | [] => 0
  | Call.delay ms :: cs => ms + delaySum cs
  | _ :: cs => delaySum cs

/-- How a segment of a function body ends: with a `return`, or by running into the code
that follows it. -/
inductive Flow where
  | returned (r : Bool) (s : Sys)
  | fallthrough (s : Sys)

/-! ## Session controller -/

/-- `bool Adafruit_CC3000::connectSecure(char *ssid, char *key, int32_t secMode)`.
`ssid` and `key` are the characters before the terminating NUL, so `strlen` is `length`. -/
def connectSecure (E : Env) (t : HciTags) (s : Sys) (ssid key : List Nat) (secMode : Int) :
    Bool × Sys :=
  if !s._initialised then (false, s)
  else if secMode < 0 ∨ secMode > 3 then (false, s)
  else if ssid.length > MAXSSID then (false, s)
  else if key.length > MAXLENGTHKEY then (false, s)
  else
    let r1 := issue E t s (Call.wlan_ioctl_set_connection_policy 0 0 0)
    if r1.1 ≠ CC3000_SUCCESS then (false, r1.2)
    else
      let r2 := issue E t r1.2 (Call.delay 500)
      let r3 := issue E t r2.2 (Call.wlan_connect secMode ssid ssid.length key key.length)
      if r3.1 ≠ CC3000_SUCCESS then (false, r3.2)
      else (true, r3.2)

/-- `bool Adafruit_CC3000::connectOpen(char *ssid)` (the variant compiled without
`CC3000_TINY_DRIVER`). -/
def connectOpen (E : Env) (t : HciTags) (k : Consts) (s : Sys) (ssid : List Nat) :
    Bool × Sys :=
  if !s._initialised then (false, s)
  else
    let r1 := issue E t s (Call.wlan_ioctl_set_connection_policy 0 0 0)
    if r1.1 ≠ CC3000_SUCCESS then (false, r1.2)
    else
      let r2 := issue E t r1.2 (Call.delay 500)
      let r3 := issue E t r2.2 (Call.wlan_connect k.WLAN_SEC_UNSEC ssid ssid.length [] 0)
      if r3.1 ≠ CC3000_SUCCESS then (false, r3.2)
      else (true, r3.2)

/-- `_smartConfigKey`: the AES key "0123456789012345". -/
def _smartConfigKey : List Nat :=
  [0x30, 0x31, 0x32, 0x33, 0x34, 0x35, 0x36, 0x37, 0x38, 0x39, 0x30, 0x31, 0x32, 0x33, 0x34, 0x35]

/-- `_cc3000_prefix`: the three characters 'T', 'T', 'T'. -/
def _cc3000_pfx : List Nat := [0x54, 0x54, 0x54]

/-- `_deviceName`: "CC3000". -/
def _deviceName : List Nat := [0x43, 0x43, 0x33, 0x30, 0x30, 0x30]

/-- The disconnect loop of `startSmartConfig`:
`while (ulCC3000Connected == WIFI_STATUS_CONNECTED) { CHECK_SUCCESS(wlan_disconnect(), ..);
delay(10); hci_unsolicited_event_handler(); }`.  The loop has no bound of its own; `none`
means the fuel ran out. -/
def disconnectLoop (E : Env) (t : HciTags) (k : Consts) : Nat → Sys → Option Flow
  | 0, s =>
    if s.g.ulCC3000Connected = k.WIFI_STATUS_CONNECTED then none else some (Flow.fallthrough s)
  | fuel + 1, s =>
    if s.g.ulCC3000Connected = k.WIFI_STATUS_CONNECTED then
      let r1 := issue E t s Call.wlan_disconnect
      if r1.1 ≠ CC3000_SUCCESS then some (Flow.returned false r1.2)
      else
        let r2 := issue E t r1.2 (Call.delay 10)
        let r3 := issue E t r2.2 Call.hci_unsolicited_event_handler
        disconnectLoop E t k fuel r3.2
    else some (Flow.fallthrough s)

/-- Lines 625-675 of `startSmartConfig`: everything before the wait for the smart config
data. -/
def startSmartConfig_setup (E : Env) (t : HciTags) (k : Consts) (fuel : Nat) (s : Sys) :
    Option Flow :=
  let s := { s with g := { s.g with ulSmartConfigFinished := 0, ulCC3000Connected := 0,
                                    ulCC3000DHCP := 0, OkToDoShutDown := 0 } }
  if !s._initialised then some (Flow.returned false s)
  else
    let r1 := issue E t s
      (Call.wlan_ioctl_set_connection_policy k.WIFI_DISABLE k.WIFI_DISABLE k.WIFI_DISABLE)
    if r1.1 ≠ CC3000_SUCCESS then some (Flow.returned false r1.2)
    else
      let r2 := issue E t r1.2 (Call.wlan_ioctl_del_profile 255)
      if r2.1 ≠ CC3000_SUCCESS then some (Flow.returned false r2.2)
      else
        match disconnectLoop E t k fuel r2.2 with
        | none => none
        | some (Flow.returned r s) => some (Flow.returned r s)
        | some (Flow.fallthrough s) =>
          let r3 := issue E t s Call.wlan_stop
          let r4 := issue E t r3.2 (Call.delay 1000)
          let r5 := issue E t r4.2 (Call.wlan_start 0)
          let r6 := issue E t r5.2 (Call.nvmem_create_entry k.NVMEM_AES128_KEY_FILEID 16)
          if r6.1 ≠ CC3000_SUCCESS then some (Flow.returned false r6.2)
          else
            let r7 := issue E t r6.2 (Call.aes_write_key _smartConfigKey)
            if r7.1 ≠ CC3000_SUCCESS then some (Flow.returned false r7.2)
            else
              let r8 := issue E t r7.2 (Call.wlan_smart_config_set_pfx _cc3000_pfx)
              if r8.1 ≠ CC3000_SUCCESS then some (Flow.returned false r8.2)
              else
                let r9 := issue E t r8.2 (Call.wlan_smart_config_start 0)
                if r9.1 ≠ CC3000_SUCCESS then some (Flow.returned false r9.2)
                else some (Flow.fallthrough r9.2)

/-- Lines 677-688 of `startSmartConfig`: the wait for `ulSmartConfigFinished`, with the
`uint32_t` counter `timeout`:
`while (ulSmartConfigFinished == 0) { timeout += 10; if (timeout > 60000) return false;
delay(10); }`. -/
def smartConfigWait (E : Env) (t : HciTags) : Nat → Nat → Sys → Option Flow
  | 0, _, s => if s.g.ulSmartConfigFinished = 0 then none else some (Flow.fallthrough s)
  | fuel + 1, timeout, s =>
    if s.g.ulSmartConfigFinished = 0 then
      let timeout := (timeout + 10) % 2 ^ 32
      if timeout > 60000 then some (Flow.returned false s)
      else smartConfigWait E t fuel timeout (issue E t s (Call.delay 10)).2
    else some (Flow.fallthrough s)

/-- Lines 721-732 of `startSmartConfig`: the wait for the connection:
`while (!ulCC3000Connected) { if (timeout > WLAN_CONNECT_TIMEOUT) return false;
timeout += 10; delay(10); }`. -/
def smartConfigConnectWait (E : Env) (t : HciTags) (k : Consts) : Nat → Nat → Sys → Option Flow
  | 0, _, s => if s.g.ulCC3000Connected = 0 then none else some (Flow.fallthrough s)
  | fuel + 1, timeout, s =>
    if s.g.ulCC3000Connected = 0 then
      if timeout > k.WLAN_CONNECT_TIMEOUT then some (Flow.returned false s)
      else
        smartConfigConnectWait E t k fuel ((timeout + 10) % 2 ^ 32)
          (issue E t s (Call.delay 10)).2
    else some (Flow.fallthrough s)

/-- Lines 690-741 of `startSmartConfig`: everything after the wait for the smart config
data. -/
def startSmartConfig_finish (E : Env) (t : HciTags) (k : Consts) (enableAES : Bool)
    (fuel : Nat) (s : Sys) : Option (Bool × Sys) :=
  let r1 := if enableAES then issue E t s Call.wlan_smart_config_process else (CC3000_SUCCESS, s)
  if r1.1 ≠ CC3000_SUCCESS then some (false, r1.2)
  else
    let r2 := issue E t r1.2
      (Call.wlan_ioctl_set_connection_policy k.WIFI_DISABLE k.WIFI_DISABLE k.WIFI_ENABLE)
    if r2.1 ≠ CC3000_SUCCESS then some (false, r2.2)
    else
      let r3 := issue E t r2.2 Call.wlan_stop
      let r4 := issue E t r3.2 (Call.delay 1000)
      let r5 := issue E t r4.2 (Call.wlan_start 0)
      let r6 := issue E t r5.2
        (Call.wlan_set_event_mask (k.HCI_EVNT_WLAN_KEEPALIVE ||| k.HCI_EVNT_WLAN_UNSOL_INIT))
      if r6.1 ≠ CC3000_SUCCESS then some (false, r6.2)
      else
        match smartConfigConnectWait E t k fuel 0 r6.2 with
        | none => none
        | some (Flow.returned r s) => some (r, s)
        | some (Flow.fallthrough s) =>
          let r7 := issue E t s (Call.delay 1000)
          if r7.2.g.ulCC3000DHCP ≠ 0 then
            some (true, (issue E t r7.2 (Call.mdnsAdvertiser 1 _deviceName _deviceName.length)).2)
          else some (true, r7.2)

/-- `bool Adafruit_CC3000::startSmartConfig(bool enableAES)`.  `fuel` bounds the number of
iterations of each loop; `none` means it ran out. -/
def startSmartConfig (E : Env) (t : HciTags) (k : Consts) (enableAES : Bool) (fuel : Nat)
    (s : Sys) : Option (Bool × Sys) :=
  match startSmartConfig_setup E t k fuel s with
  | none => none
  | some (Flow.returned r s) => some (r, s)
  | some (Flow.fallthrough s) =>
    match smartConfigWait E t fuel 0 s with
    | none => none
    | some (Flow.returned r s) => some (r, s)
    | some (Flow.fallthrough s) => startSmartConfig_finish E t k enableAES fuel s

/-- An environment in which every call returns 0, `recv` stores nothing and no event ever
arrives. -/
def quietEnv : Env where
  reply := fun _ _ => 0
  rx := fun _ _ => []
  async := fun _ _ => []

/-- A controller after a successful `begin()`, with an empty call log. -/
def sys0 : Sys where
  g := globals0
  _initialised := true
  log := []

/-! ## Socket client -/

/-- The fields of `Adafruit_CC3000_Client`.  Their declarations are in `Adafruit_CC3000.h`,
which is not part of this source file: `_socket` and `bufsiz` are signed integers (the code
tests `_socket < 0`, `bufsiz <= 0` and `bufsiz == -57`), `_rx_buf_idx` is an index, and the
two buffers are byte arrays whose sizes are the lengths of the lists. -/
structure Client where
  _socket : Int
  bufsiz : Int
  _rx_buf_idx : Nat
  _rx_buf : List Nat
  _tx_buf : List Nat
  deriving DecidableEq, Repr

/-- `Adafruit_CC3000_Client::Adafruit_CC3000_Client(void)`: only `_socket` is assigned; the
other fields keep whatever the storage `mem` held. -/
def Client.mkClosed (mem : Client) : Client :=
  { mem with _socket := -1 }

/-- `Adafruit_CC3000_Client::Adafruit_CC3000_Client(uint16_t s)`; the buffers keep whatever
the storage `mem` held. -/
def Client.mkOpen (mem : Client) (s : Nat) : Client :=
  { mem with _socket := s, bufsiz := 0, _rx_buf_idx := 0 }

/-- What `recv(sd, buf, len, 0)` leaves in `buf` when the transport stores `data`: at most
`len` bytes at the start of the buffer are overwritten. -/
def storeRx (buf data : List Nat) : List Nat :=
  data.take buf.length ++ buf.drop data.length

/-- `int32_t Adafruit_CC3000_Client::close(void)`. -/
def Client.close (E : Env) (c : Client) (s : Sys) : Int × Client × Sys :=
  let r := sockcall E s (Call.closesocket c._socket)
  (r.1, { c with _socket := -1 }, r.2)

/-- `uint8_t Adafruit_CC3000_Client::read(void)`.  `sizeof(_rx_buf)` is the length of the
buffer.  The refill loop has no bound of its own: each `recv` uses one unit of fuel and
`none` means the fuel ran out while the buffer was still empty. -/
def Client.read (E : Env) : Nat → Client → Sys → Option (Nat × Client × Sys)
  | 0, c, s =>
    if c.bufsiz ≤ 0 ∨ c.bufsiz = (c._rx_buf_idx : Int) then none
    else some (c._rx_buf.getD c._rx_buf_idx 0 % 256, { c with _rx_buf_idx := c._rx_buf_idx + 1 }, s)
  | fuel + 1, c, s =>
    if c.bufsiz ≤ 0 ∨ c.bufsiz = (c._rx_buf_idx : Int) then
      let call := Call.recv c._socket c._rx_buf.length
      let r := sockcall E s call
      let c := { c with bufsiz := r.1, _rx_buf := storeRx c._rx_buf (E.rx s.log call) }
      if r.1 = -57 then
        let x := c.close E r.2
        some (0, x.2.1, x.2.2)
      else Client.read E fuel { c with _rx_buf_idx := 0 } r.2
    else some (c._rx_buf.getD c._rx_buf_idx 0 % 256, { c with _rx_buf_idx := c._rx_buf_idx + 1 }, s)

/-- `uint8_t Adafruit_CC3000_Client::available(void)`; the result is converted to the
`uint8_t` return type. -/
def Client.available (E : Env) (c : Client) (s : Sys) : Nat × Sys :=
  if c._socket < 0 then (0, s)
  else if c.bufsiz > 0 ∧ (c._rx_buf_idx : Int) < c.bufsiz then
    (((c.bufsiz - (c._rx_buf_idx : Int)) % 256).toNat, s)
  else
    let r := sockcall E s (Call.select (c._socket + 1) c._socket 5000)
    if r.1 = 1 then (1, r.2) else (0, r.2)

/-- `bool Adafruit_CC3000_Client::connected(void)`.  `closed_sockets[_socket]` is read and
written through `closedGet` and `closedSet`; for `_socket >= MAX_SOCKETS` the source
accesses memory outside the array, which the embedding cannot follow (see `closedGet`). -/
def Client.connected (E : Env) (c : Client) (s : Sys) : Bool × Client × Sys :=
  if c._socket < 0 then (false, c, s)
  else
    let a := c.available E s
    if a.1 = 0 ∧ closedGet a.2.g.closed_sockets c._socket.toNat = true then
      let r := sockcall E a.2 (Call.closesocket c._socket)
      let s2 := { r.2 with g := { r.2.g with
        closed_sockets := closedSet r.2.g.closed_sockets c._socket.toNat false } }
      (false, { c with _socket := -1 }, s2)
    else (true, c, a.2)

/-- `n += send(...)` on the `size_t` accumulator `n`: the sum is reduced modulo
`sizeMod = SIZE_MAX + 1`. -/
def addSize (sizeMod : Nat) (n : Nat) (r : Int) : Nat :=
  (((n : Int) + r) % (sizeMod : Int)).toNat

/-- The `while (1)` loop of `fastrprint(const __FlashStringHelper *)`.  `p` is the memory
from the read pointer on (`pgm_read_byte(p++)` takes its head; memory that is not there
reads as the terminator), `idx` is the `uint8_t` fill count, `n` the `size_t` total. -/
def fastrprint_loop (E : Env) (TXBUFFERSIZE sizeMod : Nat) (sd : Int) :
    List Nat → List Nat → Nat → Nat → Sys → List Nat × Nat × Nat × Sys
  | [], tx, idx, n, s => (tx, idx, n, s)
  | ch :: p, tx, idx, n, s =>
    if ch % 256 = 0 then (tx, idx, n, s)
    else
      let tx := tx.set idx (ch % 256)
      let idx := (idx + 1) % 256
      if idx ≥ TXBUFFERSIZE then
        let r := sockcall E s (Call.send sd (tx.take TXBUFFERSIZE) TXBUFFERSIZE)
        fastrprint_loop E TXBUFFERSIZE sizeMod sd p tx 0 (addSize sizeMod n r.1) r.2
      else fastrprint_loop E TXBUFFERSIZE sizeMod sd p tx idx n s

/-- `size_t Adafruit_CC3000_Client::fastrprint(const __FlashStringHelper *ifsh)`.
`TXBUFFERSIZE` is the macro of `Adafruit_CC3000.h`, `sizeMod` is `SIZE_MAX + 1`. -/
def Client.fastrprint (E : Env) (TXBUFFERSIZE sizeMod : Nat) (c : Client) (s : Sys)
    (ifsh : List Nat) : Nat × Client × Sys :=
  let l := fastrprint_loop E TXBUFFERSIZE sizeMod c._socket ifsh c._tx_buf 0 0 s
  let r := sockcall E l.2.2.2 (Call.send c._socket (l.1.take l.2.1) l.2.1)
  (addSize sizeMod l.2.2.1 r.1, { c with _tx_buf := l.1 }, r.2)

/-- The lengths of the `send` calls in a log, in issue order. -/
def sendLens : List Call → List Nat
  | [] => []
  | Call.send _ _ len :: cs => len :: sendLens cs
  | _ :: cs => sendLens cs

/-- A call is a `send` on socket `sd` whose payload has the announced length. -/
def Call.isSendOn (sd : Int) : Call → Bool
  | Call.send sd2 payload len => decide (sd2 = sd) && decide (payload.length = len)
  | _ => false

/-- `k` consecutive calls of `read()`, collecting the returned bytes. -/
def Client.readN (E : Env) (fuel : Nat) : Nat → Client → Sys → Option (List Nat × Client × Sys)
  | 0, c, s => some ([], c, s)
  | k + 1, c, s =>
    match Client.read E fuel c s with
    | none => none
    | some x =>
      match Client.readN E fuel k x.2.1 x.2.2 with
      | none => none
      | some y => some (x.1 :: y.1, y.2.1, y.2.2)

/-- A client that was closed while three received bytes were still unread. -/
def closedClientWithData : Client where
  _socket := -1
  bufsiz := 3
  _rx_buf_idx := 0
  _rx_buf := [0x41, 0x42, 0x43, 0]
  _tx_buf := [0, 0, 0, 0]

/-- An open client on socket 0 with an empty receive buffer of four bytes. -/
def openClient0 : Client where
  _socket := 0
  bufsiz := 0
  _rx_buf_idx := 0
  _rx_buf := [0, 0, 0, 0]
  _tx_buf := [0, 0, 0, 0]

/-- An open client on socket 0 holding three received bytes, one of them already read. -/
def openClientWithData : Client where
  _socket := 0
  bufsiz := 3
  _rx_buf_idx := 1
  _rx_buf := [0x41, 0x42, 0x43, 0]
  _tx_buf := [0, 0, 0, 0]

/-- An environment whose `select` always reports the socket readable (returns 1); every
other call returns 0. -/
def readableEnv : Env where
  reply := fun _ c => match c with
    | Call.select _ _ _ => 1
    | _ => 0
  rx := fun _ _ => []
  async := fun _ _ => []

/-- A system state in which the peer of socket 0 has closed: `closed_sockets[0]` is set. -/
def sysClosed0 : Sys where
  g := { globals0 with closed_sockets := fun i => decide (i.val = 0) }
  _initialised := true
  log := []

/-- An environment whose first `recv` (on an empty history) delivers the three bytes
`0x41, 0x42, 0x43` and whose later `recv` calls report the closed code -57. -/
def abcEnv : Env where
  reply := fun hist c => match c with
    | Call.recv _ _ => if hist = [] then 3 else -57
    | _ => 0
  rx := fun hist c => match c with
    | Call.recv _ _ => if hist = [] then [0x41, 0x42, 0x43] else []
    | _ => []
  async := fun _ _ => []

/-- An environment in which every `send` reports the full length as sent; every other call
returns 0. -/
def fullSendEnv : Env where
  reply := fun _ c => match c with
    | Call.send _ _ len => (len : Int)
    | _ => 0
  rx := fun _ _ => []
  async := fun _ _ => []

/-- An open client on socket 0 with a staging buffer of 64 bytes. -/
def openClient64 : Client where
  _socket := 0
  bufsiz := 0
  _rx_buf_idx := 0
  _rx_buf := List.replicate 64 0
  _tx_buf := List.replicate 64 0

/-- `int16_t Adafruit_CC3000_Client::write(const void *buf, uint16_t len, uint32_t flags)`:
the result of `send`, handed back as is.  No field of the client is assigned, so only the
system state is returned. -/
def Client.write (E : Env) (c : Client) (s : Sys) (buf : List Nat) (len : Nat) : Int × Sys :=
  sockcall E s (Call.send c._socket (buf.take len) len)

/-- `size_t Adafruit_CC3000_Client::write(uint8_t c)`: `r = send(_socket, &c, 1, 0);
if (r < 0) return 0; return r;`.  The `int32_t` value `r` is converted to the `size_t`
return type (`sizeMod = SIZE_MAX + 1`).  No field of the client is assigned. -/
def Client.writeByte (E : Env) (sizeMod : Nat) (c : Client) (s : Sys) (b : Nat) : Nat × Sys :=
  let r := sockcall E s (Call.send c._socket [b % 256] 1)
  if r.1 < 0 then (0, r.2) else ((r.1 % (sizeMod : Int)).toNat, r.2)

/-- `int16_t Adafruit_CC3000_Client::read(void *buf, uint16_t len, uint32_t flags)`: one
`recv` into the caller's buffer; the result is the return value and the caller's buffer
afterwards.  No field of the client is assigned. -/
def Client.readBuf (E : Env) (c : Client) (s : Sys) (buf : List Nat) (len : Nat) :
    Int × List Nat × Sys :=
  let call := Call.recv c._socket len
  let r := sockcall E s call
  (r.1, storeRx buf ((E.rx s.log call).take len), r.2)

/-- The payloads of the `send` calls in a log, in issue order. -/
def sendPayloads : List Call → List (List Nat)
  | [] => []
  | Call.send _ payload _ :: cs => payload :: sendPayloads cs
  | _ :: cs => sendPayloads cs

/-- An environment in which every `send` reports that nothing was sent (returns 0). -/
def zeroSendEnv : Env where
  reply := fun _ _ => 0
  rx := fun _ _ => []
  async := fun _ _ => []

/-- An environment whose every `recv` reports the closed code -57; other calls return 0. -/
def closedEnv : Env where
  reply := fun _ c => match c with
    | Call.recv _ _ => -57
    | _ => 0
  rx := fun _ _ => []
  async := fun _ _ => []

/-- An environment whose every `send` fails with -1; other calls return 0. -/
def failSendEnv : Env where
  reply := fun _ c => match c with
    | Call.send _ _ _ => -1
    | _ => 0
  rx := fun _ _ => []
  async := fun _ _ => []

/-- An environment whose `send` results are erratic: the first send (on an empty history)
fails with -1, later ones report 7 bytes; other calls return 0. -/
def erraticSendEnv : Env where
  reply := fun hist c => match c with
    | Call.send _ _ _ => if hist = [] then -1 else 7
    | _ => 0
  rx := fun _ _ => []
  async := fun _ _ => []

/-- An open client on socket 0 with a staging buffer of 2 bytes. -/
def openClient2 : Client where
  _socket := 0
  bufsiz := 0
  _rx_buf_idx := 0
  _rx_buf := [0, 0]
  _tx_buf := [0, 0]

/-- The buffer invariant of the spec: `0 <= rxCursor <= rxFill <= capacity`, with
`rxCursor = _rx_buf_idx`, `rxFill = bufsiz` and `capacity = sizeof(_rx_buf)`. -/
def Client.BufInv (c : Client) : Prop :=
  (c._rx_buf_idx : Int) ≤ c.bufsiz ∧ c.bufsiz ≤ (c._rx_buf.length : Int)

instance (c : Client) : Decidable c.BufInv := by
  unfold Client.BufInv; infer_instance

/-- A closed client that never held data: `_socket = -1`, empty buffer. -/
def deadClient : Client where
  _socket := -1
  bufsiz := 0
  _rx_buf_idx := 0
  _rx_buf := [0, 0, 0, 0]
  _tx_buf := [0, 0, 0, 0]

/-- An environment whose every `recv` delivers the bytes `0x41, 0x42, 0x43`, cut to the
length asked for; other calls return 0. -/
def threeByteEnv : Env where
  reply := fun _ c => match c with
    | Call.recv _ len => ((min 3 len : Nat) : Int)
    | _ => 0
  rx := fun _ c => match c with
    | Call.recv _ len => [0x41, 0x42, 0x43].take len
    | _ => []
  async := fun _ _ => []

/-! ## Socket factory -/

/-- Constants of `utility/socket.h`, which is not part of this source file, and the size of
its `sockaddr` type. -/
structure SockConsts where
  AF_INET : Int
  SOCK_STREAM : Int
  SOCK_DGRAM : Int
  IPPROTO_TCP : Int
  IPPROTO_UDP : Int
  sizeofSockaddr : Nat
  deriving DecidableEq, Repr

/-- A concrete choice of the socket constants, used to instantiate theorems. -/
def sampleSockConsts : SockConsts where
  AF_INET := 2
  SOCK_STREAM := 1
  SOCK_DGRAM := 2
  IPPROTO_TCP := 6
  IPPROTO_UDP := 17
  sizeofSockaddr := 16

/-- The 14 bytes of `socketAddress.sa_data` after the `memset` and the six assignments:
port high byte, port low byte, then the four bytes of the address, most significant
first. -/
def sa_data (destIP destPort : Nat) : List Nat :=
  [((destPort &&& 0xFF00) >>> 8) % 256, (destPort &&& 0x00FF) % 256, (destIP >>> 24) % 256,
   (destIP >>> 16) % 256, (destIP >>> 8) % 256, destIP % 256] ++ List.replicate 8 0

/-- `Adafruit_CC3000_Client Adafruit_CC3000::connectTCP(uint32_t destIP, uint16_t destPort)`.
The result of `socket` is stored in the `uint32_t` variable `tcp_socket` and compared with
-1 converted to that type; the constructor takes it as `uint16_t`.  `mem` is the storage of
the returned object. -/
def connectTCP (E : Env) (k : SockConsts) (mem : Client) (s : Sys) (destIP destPort : Nat) :
    Client × Sys :=
  let r1 := sockcall E s (Call.socket k.AF_INET k.SOCK_STREAM k.IPPROTO_TCP)
  let tcp_socket : Nat := (r1.1 % 2 ^ 32).toNat
  if tcp_socket = 2 ^ 32 - 1 then (Client.mkClosed mem, r1.2)
  else
    let r2 := sockcall E r1.2
      (Call.connect (tcp_socket : Int) k.AF_INET (sa_data destIP destPort) k.sizeofSockaddr)
    if r2.1 = -1 then
      let r3 := sockcall E r2.2 (Call.closesocket (tcp_socket : Int))
      (Client.mkClosed mem, r3.2)
    else (Client.mkOpen mem (tcp_socket % 2 ^ 16), r2.2)

/-- `Adafruit_CC3000_Client Adafruit_CC3000::connectUDP(uint32_t destIP, uint16_t destPort)`. -/
def connectUDP (E : Env) (k : SockConsts) (mem : Client) (s : Sys) (destIP destPort : Nat) :
    Client × Sys :=
  let r1 := sockcall E s (Call.socket k.AF_INET k.SOCK_DGRAM k.IPPROTO_UDP)
  let udp_socket : Nat := (r1.1 % 2 ^ 32).toNat
  if udp_socket = 2 ^ 32 - 1 then (Client.mkClosed mem, r1.2)
  else
    let r2 := sockcall E r1.2
      (Call.connect (udp_socket : Int) k.AF_INET (sa_data destIP destPort) k.sizeofSockaddr)
    if r2.1 = -1 then
      let r3 := sockcall E r2.2 (Call.closesocket (udp_socket : Int))
      (Client.mkClosed mem, r3.2)
    else (Client.mkOpen mem (udp_socket % 2 ^ 16), r2.2)

/-- What the claim says about a socket factory whose create call is `create`, whose connect
call on handle `h` is `conn h`, and whose result is `res`.  An error is the return value
-1 (Berkeley socket convention); a handle is a value of the constructor's `uint16_t`
parameter type.
* create fails: the client is not open, `connected()` is false, nothing but the create call
  was issued;
* create gives `h`, connect fails: the client is not open, `connected()` is false, and the
  calls are create, connect, and one `closesocket` of `h`;
* both succeed: the client's `_socket` is `h`, and the calls are create and connect. -/
def FactoryContract (E : Env) (mem : Client) (s : Sys) (create : Call) (conn : Int → Call)
    (res : Client × Sys) : Prop :=
  (E.reply s.log create = -1 →
      res = (Client.mkClosed mem, { s with log := s.log ++ [create] }) ∧
      res.1._socket = -1 ∧ (Client.connected E res.1 res.2).1 = false) ∧
  (∀ h : Int, 0 ≤ h → h < 65536 → E.reply s.log create = h →
    (E.reply (s.log ++ [create]) (conn h) = -1 →
      res = (Client.mkClosed mem,
        { s with log := s.log ++ [create, conn h, Call.closesocket h] }) ∧
      res.1._socket = -1 ∧ (Client.connected E res.1 res.2).1 = false) ∧
    (E.reply (s.log ++ [create]) (conn h) ≠ -1 →
      res = (Client.mkOpen mem h.toNat, { s with log := s.log ++ [create, conn h] }) ∧
      res.1._socket = h))

/-- An environment whose `socket` call fails with -1; other calls return 0. -/
def noSocketEnv : Env where
  reply := fun _ c => match c with
    | Call.socket _ _ _ => -1
    | _ => 0
  rx := fun _ _ => []
  async := fun _ _ => []

/-- An environment whose `socket` call returns handle 3 and whose `connect` fails with -1;
other calls return 0. -/
def noConnectEnv : Env where
  reply := fun _ c => match c with
    | Call.socket _ _ _ => 3
    | Call.connect _ _ _ _ => -1
    | _ => 0
  rx := fun _ _ => []
  async := fun _ _ => []

/-! ## Bring-up -/

/-- The loop of `begin` over `dreqinttable`, a table of (pin, interrupt number) pairs:
`for (i = 0; i < sizeof(dreqinttable); i += 2) if (g_irqPin == dreqinttable[i])
g_IRQnum = dreqinttable[i+1];`.  The table depends on the target board, so it is a
parameter; a trailing unpaired entry is not looked at. -/
def irqLookup (g_irqPin : Nat) : List Nat → Nat → Nat
  | pin :: num :: rest, g_IRQnum =>
    irqLookup g_irqPin rest (if g_irqPin = pin then num else g_IRQnum)
  | _, g_IRQnum => g_IRQnum

/-- `bool Adafruit_CC3000::begin(uint8_t patchReq)`.  `g_irqPin` and `g_IRQnum` are the
file-scope variables of those names; the result carries the new value of `g_IRQnum`.  The
return values of `wlan_ioctl_set_connection_policy` and `wlan_ioctl_del_profile` are not
looked at; only `wlan_set_event_mask` is wrapped in `CHECK_SUCCESS`. -/
def begin (E : Env) (t : HciTags) (k : Consts) (dreqinttable : List Nat)
    (g_irqPin g_IRQnum patchReq : Nat) (s : Sys) : Bool × Nat × Sys :=
  let g_IRQnum := irqLookup g_irqPin dreqinttable g_IRQnum
  if g_IRQnum = 0xFF then (false, g_IRQnum, s)
  else
    let r1 := issue E t s Call.init_spi
    let r2 := issue E t r1.2 Call.wlan_init
    let r3 := issue E t r2.2 (Call.wlan_start patchReq)
    let r4 := issue E t r3.2 (Call.wlan_ioctl_set_connection_policy 0 0 0)
    let r5 := issue E t r4.2 (Call.wlan_ioctl_del_profile 255)
    let r6 := issue E t r5.2
      (Call.wlan_set_event_mask (k.HCI_EVNT_WLAN_UNSOL_INIT ||| k.HCI_EVNT_WLAN_KEEPALIVE))
    if r6.1 ≠ CC3000_SUCCESS then (false, g_IRQnum, r6.2)
    else (true, g_IRQnum, { r6.2 with _initialised := true })

/-- The interrupt table of the ATmega328 branch of the source: pin 2 is INT0, pin 3 is
INT1. -/
def dreqinttable328 : List Nat := [2, 0, 3, 1]

/-- A controller as the constructor leaves it: not initialised, empty call log. -/
def sysNew : Sys where
  g := globals0
  _initialised := false
  log := []

/-- An environment in which `wlan_ioctl_set_connection_policy` and `wlan_ioctl_del_profile`
fail with -1 while every other call returns 0; no event arrives. -/
def policyFailEnv : Env where
  reply := fun _ c => match c with
    | Call.wlan_ioctl_set_connection_policy _ _ _ => -1
    | Call.wlan_ioctl_del_profile _ => -1
    | _ => 0
  rx := fun _ _ => []
  async := fun _ _ => []

/-! ## Connect with retry -/

/-- `bool Adafruit_CC3000::scanSSIDs(uint32_t time)`. -/
def scanSSIDs (E : Env) (t : HciTags) (s : Sys) (time : Nat) : Bool × Sys :=
  if !s._initialised then (false, s)
  else
    let r := issue E t s (Call.wlan_ioctl_set_scan_params time 20 100 5 0x7FF (-120) 0 300
      (List.replicate 16 2000))
    if r.1 ≠ CC3000_SUCCESS then (false, r.2) else (true, r.2)

/-- `bool Adafruit_CC3000::checkConnected(void)`. -/
def checkConnected (s : Sys) : Bool :=
  if s.g.ulCC3000Connected ≠ 0 then true else false

/-- Conversion of an integer to `int16_t`. -/
def toInt16 (x : Int) : Int := (x + 32768) % 65536 - 32768

/-- The wait loop of `connectToAP`:
`while ((timer > 0) && !checkConnected()) { delay(10); timer -= 10; }` with the `int16_t`
variable `timer`.  The result carries the value of `timer` after the loop. -/
def connectToAP_wait (E : Env) (t : HciTags) : Nat → Int → Sys → Option (Int × Sys)
  | 0, timer, s => if timer > 0 ∧ !checkConnected s then none else some (timer, s)
  | fuel + 1, timer, s =>
    if timer > 0 ∧ !checkConnected s then
      connectToAP_wait E t fuel (toInt16 (timer - 10)) (issue E t s (Call.delay 10)).2
    else some (timer, s)

/-- One pass through the body of the `do { ... } while (!checkConnected())` loop of
`connectToAP`, entered with the current value of `timer`; `continue` leaves the body
without waiting.  `wfuel` bounds the wait loop. -/
def connectToAP_attempt (E : Env) (t : HciTags) (k : Consts) (wfuel : Nat)
    (ssid key : List Nat) (secmode : Nat) (timer : Int) (s : Sys) : Option (Int × Sys) :=
  let s1 := (scanSSIDs E t s 4000).2
  let s2 := (issue E t s1 (Call.delay 4500)).2
  let s3 := (scanSSIDs E t s2 0).2
  if secmode = 0 ∨ key.length = 0 then
    let r := connectOpen E t k s3 ssid
    if !r.1 then some (timer, r.2)
    else connectToAP_wait E t wfuel timer r.2
  else
    let r := connectSecure E t s3 ssid key (secmode : Int)
    if !r.1 then some (timer, r.2)
    else connectToAP_wait E t wfuel timer r.2

/-- The `do { ... } while (!checkConnected())` loop of `connectToAP`.  The loop has no
bound of its own; `fuel` bounds the number of passes and `none` means it ran out. -/
def connectToAP_loop (E : Env) (t : HciTags) (k : Consts) (wfuel : Nat) (ssid key : List Nat)
    (secmode : Nat) : Nat → Int → Sys → Option Sys
  | 0, _, _ => none
  | fuel + 1, timer, s =>
    match connectToAP_attempt E t k wfuel ssid key secmode timer s with
    | none => none
    | some r => if !checkConnected r.2 then
        connectToAP_loop E t k wfuel ssid key secmode fuel r.1 r.2
      else some r.2

/-- `void Adafruit_CC3000::connectToAP(char *ssid, char *key, uint8_t secmode)`:
`int16_t timer = WLAN_CONNECT_TIMEOUT;` is set once, before the loop. -/
def connectToAP (E : Env) (t : HciTags) (k : Consts) (wfuel fuel : Nat) (ssid key : List Nat)
    (secmode : Nat) (s : Sys) : Option Sys :=
  connectToAP_loop E t k wfuel ssid key secmode fuel (toInt16 (k.WLAN_CONNECT_TIMEOUT : Int)) s

/-- The calls of one pass of `connectToAP` on an open network before its wait loop: the
scan-and-discard cycle and the open connect. -/
def attemptCalls (k : Consts) (ssid : List Nat) : List Call :=
  [Call.wlan_ioctl_set_scan_params 4000 20 100 5 0x7FF (-120) 0 300 (List.replicate 16 2000),
   Call.delay 4500,
   Call.wlan_ioctl_set_scan_params 0 20 100 5 0x7FF (-120) 0 300 (List.replicate 16 2000),
   Call.wlan_ioctl_set_connection_policy 0 0 0,
   Call.delay 500,
   Call.wlan_connect k.WLAN_SEC_UNSEC ssid ssid.length [] 0]

/-- No event is ever dispatched by the environment. -/
def Env.Quiet (E : Env) : Prop :=
  ∀ (hist : List Call) (c : Call), E.async hist c = []

/-! ## Ping -/

/-- Facts about the target that `ping` depends on and that are fixed outside this source
file: where the field `packets_received` lies inside `netapp_pingreport_args_t`
(`utility/netapp.h`), and the modulus `UINT_MAX + 1` of the arithmetic in
`timeout*attempts*2`. -/
structure Platform where
  recvOff : Nat
  recvLen : Nat
  uintMod : Nat
  deriving DecidableEq, Repr

/-- A concrete target: five 4-byte fields (so `packets_received` is bytes 4..7), 16-bit
`unsigned int`. -/
def samplePlatform : Platform where
  recvOff := 4
  recvLen := 4
  uintMod := 65536

/-- Write zero to the bytes `off .. off + len - 1` of an object. -/
def zeroField (off len : Nat) (bytes : List Int) : List Int :=
  bytes.take off ++ ((bytes.drop off).take len).map (fun _ => 0) ++ bytes.drop (off + len)

/-- Read the bytes `off .. off + len - 1` of an object as a little-endian unsigned number. -/
def readField (off len : Nat) (bytes : List Int) : Nat :=
  ((bytes.drop off).take len).foldr (fun b acc => (b % 256).toNat + 256 * acc) 0

/-- `uint16_t Adafruit_CC3000::ping(uint32_t ip, uint8_t attempts, uint16_t timeout,
uint8_t size)`. -/
def ping (E : Env) (t : HciTags) (pf : Platform) (s : Sys) (ip attempts timeout size : Nat) :
    Nat × Sys :=
  if !s._initialised then (0, s)
  else
    let revIP := ((ip >>> 24) ||| ((ip >>> 8) &&& 0xFF00) ||| ((ip <<< 8) &&& 0xFF0000) |||
      (ip <<< 24)) % 2 ^ 32
    let s := { s with g := { s.g with
      pingReportnum := 0,
      pingReport := zeroField pf.recvOff pf.recvLen s.g.pingReport } }
    let r1 := issue E t s (Call.netapp_ping_send revIP attempts size timeout)
    let r2 := issue E t r1.2 (Call.delay ((timeout * attempts * 2) % pf.uintMod))
    if r2.2.g.pingReportnum ≠ 0 then
      (readField pf.recvOff pf.recvLen r2.2.g.pingReport % 2 ^ 16, r2.2)
    else (0, r2.2)

/-- The system state a segment ends in. -/
def Flow.sys : Flow → Sys
  | Flow.returned _ s => s
  | Flow.fallthrough s => s

/-- What `startSmartConfig` writes to the globals on entry. -/
def smartConfigReset (g : Globals) : Globals :=
  { g with ulSmartConfigFinished := 0, ulCC3000Connected := 0, ulCC3000DHCP := 0,
           OkToDoShutDown := 0 }

/-- A controller that is not initialised while the link is up and a DHCP lease is held. -/
def sysLinkUp : Sys where
  g := { globals0 with ulCC3000Connected := 1, ulCC3000DHCP := 1 }
  _initialised := false
  log := []

/-- An initialised controller that holds five ping reports, the last one non-zero in every
byte. -/
def sysPinged : Sys where
  g := { globals0 with pingReportnum := 5, pingReport := List.replicate 20 7 }
  _initialised := true
  log := []

/-- No provisioning-complete event is ever dispatched by the environment: `provisioningDone`
never becomes true. -/
def Env.NeverProvisioned (E : Env) (t : HciTags) : Prop :=
  ∀ (hist : List Call) (c : Call) (e : Event),
    e ∈ E.async hist c → e.lEventType ≠ t.HCI_EVNT_WLAN_ASYNC_SIMPLE_CONFIG_DONE

/-! ## Event applier: theorems -/

/-- Distinctness of the seven tags, spelled out as the 21 inequalities. -/
theorem HciTags.Distinct.ne {t : HciTags} (h : t.Distinct) :
    (t.HCI_EVNT_WLAN_ASYNC_SIMPLE_CONFIG_DONE ≠ t.HCI_EVNT_WLAN_UNSOL_CONNECT ∧
      t.HCI_EVNT_WLAN_ASYNC_SIMPLE_CONFIG_DONE ≠ t.HCI_EVNT_WLAN_UNSOL_DISCONNECT ∧
      t.HCI_EVNT_WLAN_ASYNC_SIMPLE_CONFIG_DONE ≠ t.HCI_EVNT_WLAN_UNSOL_DHCP ∧
      t.HCI_EVNT_WLAN_ASYNC_SIMPLE_CONFIG_DONE ≠ t.HCI_EVENT_CC3000_CAN_SHUT_DOWN ∧
      t.HCI_EVNT_WLAN_ASYNC_SIMPLE_CONFIG_DONE ≠ t.HCI_EVNT_WLAN_ASYNC_PING_REPORT ∧
      t.HCI_EVNT_WLAN_ASYNC_SIMPLE_CONFIG_DONE ≠ t.HCI_EVNT_BSD_TCP_CLOSE_WAIT) ∧
    (t.HCI_EVNT_WLAN_UNSOL_CONNECT ≠ t.HCI_EVNT_WLAN_UNSOL_DISCONNECT ∧
      t.HCI_EVNT_WLAN_UNSOL_CONNECT ≠ t.HCI_EVNT_WLAN_UNSOL_DHCP ∧
      t.HCI_EVNT_WLAN_UNSOL_CONNECT ≠ t.HCI_EVENT_CC3000_CAN_SHUT_DOWN ∧
      t.HCI_EVNT_WLAN_UNSOL_CONNECT ≠ t.HCI_EVNT_WLAN_ASYNC_PING_REPORT ∧
      t.HCI_EVNT_WLAN_UNSOL_CONNECT ≠ t.HCI_EVNT_BSD_TCP_CLOSE_WAIT) ∧
    (t.HCI_EVNT_WLAN_UNSOL_DISCONNECT ≠ t.HCI_EVNT_WLAN_UNSOL_DHCP ∧
      t.HCI_EVNT_WLAN_UNSOL_DISCONNECT ≠ t.HCI_EVENT_CC3000_CAN_SHUT_DOWN ∧
      t.HCI_EVNT_WLAN_UNSOL_DISCONNECT ≠ t.HCI_EVNT_WLAN_ASYNC_PING_REPORT ∧
      t.HCI_EVNT_WLAN_UNSOL_DISCONNECT ≠ t.HCI_EVNT_BSD_TCP_CLOSE_WAIT) ∧
    (t.HCI_EVNT_WLAN_UNSOL_DHCP ≠ t.HCI_EVENT_CC3000_CAN_SHUT_DOWN ∧
      t.HCI_EVNT_WLAN_UNSOL_DHCP ≠ t.HCI_EVNT_WLAN_ASYNC_PING_REPORT ∧
      t.HCI_EVNT_WLAN_UNSOL_DHCP ≠ t.HCI_EVNT_BSD_TCP_CLOSE_WAIT) ∧
    (t.HCI_EVENT_CC3000_CAN_SHUT_DOWN ≠ t.HCI_EVNT_WLAN_ASYNC_PING_REPORT ∧
      t.HCI_EVENT_CC3000_CAN_SHUT_DOWN ≠ t.HCI_EVNT_BSD_TCP_CLOSE_WAIT) ∧
    t.HCI_EVNT_WLAN_ASYNC_PING_REPORT ≠ t.HCI_EVNT_BSD_TCP_CLOSE_WAIT := by
  simp only [HciTags.Distinct, HciTags.all, List.nodup_cons, List.mem_cons, List.mem_singleton,
    List.not_mem_nil, or_false, not_or, List.nodup_nil, and_true, not_false_eq_true] at h
  obtain ⟨h1, h2, h3, h4, h5, h6⟩ := h
  exact ⟨h1, h2, h3, h4, h5, h6⟩

/-- C1: for every state, payload and length, an event whose tag is none of the seven
recognized tags leaves the whole state of the globals unchanged, hence every Session State
field (connected, dhcpBound, dhcpConfigured, provisioningDone, safeToPowerDown, pingStats,
pingReportCount, every entry of closedSockets). -/
theorem usynchCallback_unrecognized (t : HciTags) (g : Globals) (lEventType : Int)
    (data : List Int) (length : Nat) (h : lEventType ∉ t.all) :
    CC3000_UsynchCallback t g lEventType data length = g := by
  simp only [HciTags.all, List.mem_cons, List.mem_singleton, List.not_mem_nil, or_false,
    not_or] at h
  obtain ⟨h1, h2, h3, h4, h5, h6, h7⟩ := h
  simp [CC3000_UsynchCallback, h1, h2, h3, h4, h5, h6, h7]

/-- Witness for C1: tag `0x8004` under the sample tags, on a ping-sized payload. -/
theorem usynchCallback_unrecognized_witness :
    (0x8004 : Int) ∉ sampleTags.all ∧
      CC3000_UsynchCallback sampleTags globals0 0x8004 [1, 2, 3] 3 = globals0 :=
  ⟨by decide, usynchCallback_unrecognized sampleTags globals0 0x8004 [1, 2, 3] 3 (by decide)⟩

/-- C2: a link-down event clears `connected`, `dhcpBound` and `dhcpConfigured` whatever their
previous values and changes nothing else; applying a second link-down event (with any
payload) to the result gives the same state again. -/
theorem usynchCallback_link_down (t : HciTags) (g : Globals) (data : List Int) (length : Nat)
    (h : t.Distinct) :
    CC3000_UsynchCallback t g t.HCI_EVNT_WLAN_UNSOL_DISCONNECT data length =
        { g with ulCC3000Connected := 0, ulCC3000DHCP := 0, ulCC3000DHCP_configured := 0 } ∧
      ∀ (data2 : List Int) (length2 : Nat),
        CC3000_UsynchCallback t
            (CC3000_UsynchCallback t g t.HCI_EVNT_WLAN_UNSOL_DISCONNECT data length)
            t.HCI_EVNT_WLAN_UNSOL_DISCONNECT data2 length2 =
          CC3000_UsynchCallback t g t.HCI_EVNT_WLAN_UNSOL_DISCONNECT data length := by
  obtain ⟨⟨-, h13, -, -, -, -⟩, ⟨h23, -, -, -, -⟩, ⟨h34, h35, h36, h37⟩, -⟩ := h.ne
  have e1 : (t.HCI_EVNT_WLAN_UNSOL_DISCONNECT = t.HCI_EVNT_WLAN_ASYNC_SIMPLE_CONFIG_DONE) = False :=
    eq_false (Ne.symm h13)
  have e2 : (t.HCI_EVNT_WLAN_UNSOL_DISCONNECT = t.HCI_EVNT_WLAN_UNSOL_CONNECT) = False :=
    eq_false (Ne.symm h23)
  simp [CC3000_UsynchCallback, e1, e2, h34, h35, h36, h37]

/-- Witness for C2: the sample tags are distinct; link-down on a connected, DHCP-bound state. -/
theorem usynchCallback_link_down_witness :
    sampleTags.Distinct ∧
      (CC3000_UsynchCallback sampleTags
          { globals0 with ulCC3000Connected := 1, ulCC3000DHCP := 1 }
          sampleTags.HCI_EVNT_WLAN_UNSOL_DISCONNECT [] 0).ulCC3000DHCP = 0 :=
  ⟨by decide,
   by rw [(usynchCallback_link_down sampleTags
        { globals0 with ulCC3000Connected := 1, ulCC3000DHCP := 1 } [] 0 (by decide)).1]⟩

/-- C3: a remote-close event whose payload starts with the byte `b`, read as the unsigned
8-bit socket id `id = b mod 256`: when `id >= 32` the state (and so the table) is unchanged;
when `id < 32` entry `id` of `closed_sockets` becomes true, every other entry keeps its
value, and no other field changes. -/
theorem usynchCallback_remote_close (t : HciTags) (g : Globals) (b : Int) (rest : List Int)
    (length : Nat) (h : t.Distinct) :
    (MAX_SOCKETS ≤ (b % 256).toNat →
        CC3000_UsynchCallback t g t.HCI_EVNT_BSD_TCP_CLOSE_WAIT (b :: rest) length = g) ∧
      ∀ hid : (b % 256).toNat < 32,
        CC3000_UsynchCallback t g t.HCI_EVNT_BSD_TCP_CLOSE_WAIT (b :: rest) length =
            { g with closed_sockets :=
                Function.update g.closed_sockets ⟨(b % 256).toNat, hid⟩ true } ∧
          (CC3000_UsynchCallback t g t.HCI_EVNT_BSD_TCP_CLOSE_WAIT (b :: rest)
              length).closed_sockets ⟨(b % 256).toNat, hid⟩ = true ∧
          ∀ j : Fin 32, j ≠ ⟨(b % 256).toNat, hid⟩ →
            (CC3000_UsynchCallback t g t.HCI_EVNT_BSD_TCP_CLOSE_WAIT (b :: rest)
              length).closed_sockets j = g.closed_sockets j := by
  obtain ⟨⟨-, -, -, -, -, h17⟩, ⟨-, -, -, -, h27⟩, ⟨-, -, -, h37⟩, ⟨-, -, h47⟩, ⟨-, h57⟩,
    h67⟩ := h.ne
  have e1 := eq_false (Ne.symm h17)
  have e2 := eq_false (Ne.symm h27)
  have e3 := eq_false (Ne.symm h37)
  have e4 := eq_false (Ne.symm h47)
  have e5 := eq_false (Ne.symm h57)
  have e6 := eq_false (Ne.symm h67)
  refine ⟨fun hge => ?_, fun hid => ?_⟩
  · have : ¬ (b % 256).toNat < MAX_SOCKETS := Nat.not_lt.mpr hge
    simp [CC3000_UsynchCallback, e1, e2, e3, e4, e5, e6, this]
  · have hlt : (b % 256).toNat < MAX_SOCKETS := hid
    have hres : CC3000_UsynchCallback t g t.HCI_EVNT_BSD_TCP_CLOSE_WAIT (b :: rest) length =
        { g with closed_sockets :=
            Function.update g.closed_sockets ⟨(b % 256).toNat, hid⟩ true } := by
      simp [CC3000_UsynchCallback, e1, e2, e3, e4, e5, e6, hlt, closedSet, hid]
    refine ⟨hres, ?_, ?_⟩
    · rw [hres]; simp
    · intro j hj
      rw [hres]; simp [Function.update_noteq hj]

/-- Witness for C3: socket id 5 is recorded, socket id 200 is ignored. -/
theorem usynchCallback_remote_close_witness :
    sampleTags.Distinct ∧
      (CC3000_UsynchCallback sampleTags globals0 sampleTags.HCI_EVNT_BSD_TCP_CLOSE_WAIT
          [5] 1).closed_sockets ⟨5, by decide⟩ = true ∧
      CC3000_UsynchCallback sampleTags globals0 sampleTags.HCI_EVNT_BSD_TCP_CLOSE_WAIT
          [200] 1 = globals0 :=
  ⟨by decide,
   ((usynchCallback_remote_close sampleTags globals0 5 [] 1 (by decide)).2 (by decide)).2.1,
   (usynchCallback_remote_close sampleTags globals0 200 [] 1 (by decide)).1 (by decide)⟩

/-- C4: each flag-setting event changes exactly the listed field of the Session State:
link-up sets `connected`, dhcp-lease-acquired sets `dhcpBound`, power-down-permitted sets
`safeToPowerDown`, and provisioning-complete sets `provisioningDone` (together with the
private flag `ucStopSmartConfig`, which is not a Session State field).  All other fields,
in particular `connected` under dhcp-lease-acquired and `dhcpBound` under link-up, keep
their values. -/
theorem usynchCallback_flag_events (t : HciTags) (g : Globals) (data : List Int) (length : Nat)
    (h : t.Distinct) :
    CC3000_UsynchCallback t g t.HCI_EVNT_WLAN_UNSOL_CONNECT data length =
        { g with ulCC3000Connected := 1 } ∧
      CC3000_UsynchCallback t g t.HCI_EVNT_WLAN_UNSOL_DHCP data length =
        { g with ulCC3000DHCP := 1 } ∧
      CC3000_UsynchCallback t g t.HCI_EVNT_WLAN_ASYNC_SIMPLE_CONFIG_DONE data length =
        { g with ulSmartConfigFinished := 1, ucStopSmartConfig := 1 } ∧
      CC3000_UsynchCallback t g t.HCI_EVENT_CC3000_CAN_SHUT_DOWN data length =
        { g with OkToDoShutDown := 1 } := by
  obtain ⟨⟨h12, h13, h14, h15, h16, h17⟩, ⟨h23, h24, h25, h26, h27⟩, ⟨h34, h35, h36, h37⟩,
    ⟨h45, h46, h47⟩, ⟨h56, h57⟩, h67⟩ := h.ne
  have e12 := eq_false (Ne.symm h12)
  have e13 := eq_false (Ne.symm h13)
  have e14 := eq_false (Ne.symm h14)
  have e15 := eq_false (Ne.symm h15)
  have e23 := eq_false (Ne.symm h23)
  have e24 := eq_false (Ne.symm h24)
  have e25 := eq_false (Ne.symm h25)
  have e34 := eq_false (Ne.symm h34)
  have e35 := eq_false (Ne.symm h35)
  have e45 := eq_false (Ne.symm h45)
  refine ⟨?_, ?_, ?_, ?_⟩
  · simp [CC3000_UsynchCallback, e12, h23, h24, h25, h26, h27]
  · simp [CC3000_UsynchCallback, e14, e24, e34, h45, h46, h47]
  · simp [CC3000_UsynchCallback, h12, h13, h14, h15, h16, h17]
  · simp [CC3000_UsynchCallback, e15, e25, e35, e45, h56, h57]

/-- Witness for C4: a DHCP event on a connected state leaves `connected` set. -/
theorem usynchCallback_flag_events_witness :
    sampleTags.Distinct ∧
      CC3000_UsynchCallback sampleTags { globals0 with ulCC3000Connected := 1 }
          sampleTags.HCI_EVNT_WLAN_UNSOL_DHCP [] 0 =
        { globals0 with ulCC3000Connected := 1, ulCC3000DHCP := 1 } :=
  ⟨by decide,
   (usynchCallback_flag_events sampleTags { globals0 with ulCC3000Connected := 1 } [] 0
      (by decide)).2.1⟩

/-! ## Session controller: theorems -/

/-- C5: when the security mode is outside 0..3, or the SSID is longer than 32 characters, or
the key is longer than 16 characters, `connectSecure` returns false and leaves the
controller, the globals and the call log as they were: no command at all is issued
(neither set-connection-policy nor connect), whether or not the controller is initialised. -/
theorem connectSecure_invalid_argument (E : Env) (t : HciTags) (s : Sys) (ssid key : List Nat)
    (secMode : Int)
    (h : secMode < 0 ∨ secMode > 3 ∨ ssid.length > 32 ∨ key.length > 16) :
    connectSecure E t s ssid key secMode = (false, s) := by
  unfold connectSecure
  by_cases hi : s._initialised = true
  · rcases h with h | h | h | h
    · simp [hi, h]
    · simp [hi, h]
    · by_cases hm : secMode < 0 ∨ secMode > 3
      · simp [hi, hm]
      · simp [hi, hm, MAXSSID, h]
    · by_cases hm : secMode < 0 ∨ secMode > 3
      · simp [hi, hm]
      · by_cases hs : ssid.length > MAXSSID
        · simp [hi, hm, hs]
        · simp [hi, hm, hs, MAXLENGTHKEY, h]
  · simp [hi]

/-- Witness for C5: security mode 4, and an SSID of 33 characters, on an initialised
controller. -/
theorem connectSecure_invalid_argument_witness :
    connectSecure quietEnv sampleTags sys0 [0x41] [0x42] 4 = (false, sys0) ∧
      connectSecure quietEnv sampleTags sys0 (List.replicate 33 0x41) [0x42] 3 = (false, sys0) :=
  ⟨connectSecure_invalid_argument quietEnv sampleTags sys0 [0x41] [0x42] 4
      (Or.inr (Or.inl (by decide))),
   connectSecure_invalid_argument quietEnv sampleTags sys0 (List.replicate 33 0x41) [0x42] 3
      (Or.inr (Or.inr (Or.inl (by simp))))⟩

/-- An event that is not provisioning-complete does not change `ulSmartConfigFinished`. -/
theorem usynchCallback_finished (t : HciTags) (g : Globals) (e : Event)
    (h : e.lEventType ≠ t.HCI_EVNT_WLAN_ASYNC_SIMPLE_CONFIG_DONE) :
    (CC3000_UsynchCallback t g e.lEventType e.data e.length).ulSmartConfigFinished =
      g.ulSmartConfigFinished := by
  unfold CC3000_UsynchCallback
  simp only [h, if_false]
  repeat' split
  all_goals rfl

/-- Dispatching events none of which is provisioning-complete keeps
`ulSmartConfigFinished`. -/
theorem deliver_finished (t : HciTags) (evs : List Event) (g : Globals)
    (h : ∀ e ∈ evs, e.lEventType ≠ t.HCI_EVNT_WLAN_ASYNC_SIMPLE_CONFIG_DONE) :
    (deliver t g evs).ulSmartConfigFinished = g.ulSmartConfigFinished := by
  induction evs generalizing g with
  | nil => rfl
  | cons e evs ih =>
    have he := h e (List.mem_cons_self e evs)
    have ht : ∀ x ∈ evs, x.lEventType ≠ t.HCI_EVNT_WLAN_ASYNC_SIMPLE_CONFIG_DONE :=
      fun x hx => h x (List.mem_cons_of_mem e hx)
    show (deliver t (CC3000_UsynchCallback t g e.lEventType e.data e.length)
      evs).ulSmartConfigFinished = _
    rw [ih _ ht, usynchCallback_finished t g e he]

/-- A command issued in an environment that never provisions keeps
`ulSmartConfigFinished`. -/
theorem issue_finished (E : Env) (t : HciTags) (hE : E.NeverProvisioned t) (s : Sys)
    (c : Call) :
    (issue E t s c).2.g.ulSmartConfigFinished = s.g.ulSmartConfigFinished :=
  deliver_finished t _ _ (fun e he => hE s.log c e he)

/-- A command appends exactly itself to the log. -/
theorem issue_log (E : Env) (t : HciTags) (s : Sys) (c : Call) :
    (issue E t s c).2.log = s.log ++ [c] := rfl

/-- The total delay of a concatenation is the sum of the totals. -/
theorem delaySum_append (a b : List Call) : delaySum (a ++ b) = delaySum a + delaySum b := by
  induction a with
  | nil => simp [delaySum]
  | cons c a ih =>
    cases c <;> simp [delaySum, ih, Nat.add_assoc]

/-- The total delay of `n` calls `delay(10)` is `10 * n` ms. -/
theorem delaySum_replicate (n : Nat) : delaySum (List.replicate n (Call.delay 10)) = 10 * n := by
  induction n with
  | zero => rfl
  | succ n ih => simp [List.replicate_succ, delaySum, ih]; omega

/-- The wait loop entered with `timeout = 10 * j`, `j + m = 6000`, the flag clear and at
least `m + 1` units of fuel returns false after exactly `m` calls `delay(10)`. -/
theorem smartConfigWait_never (E : Env) (t : HciTags) (hE : E.NeverProvisioned t) :
    ∀ (m j fuel : Nat) (s : Sys), j + m = 6000 → m + 1 ≤ fuel →
      s.g.ulSmartConfigFinished = 0 →
      ∃ s2, smartConfigWait E t fuel (10 * j) s = some (Flow.returned false s2) ∧
        s2.log = s.log ++ List.replicate m (Call.delay 10) := by
  intro m
  induction m with
  | zero =>
    intro j fuel s hj hfuel hs
    obtain ⟨f, rfl⟩ : ∃ f, fuel = f + 1 := ⟨fuel - 1, by omega⟩
    refine ⟨s, ?_, by simp⟩
    have hj6 : j = 6000 := by omega
    subst hj6
    simp [smartConfigWait, hs]
  | succ m ih =>
    intro j fuel s hj hfuel hs
    obtain ⟨f, rfl⟩ : ∃ f, fuel = f + 1 := ⟨fuel - 1, by omega⟩
    have hmod : (10 * j + 10) % 2 ^ 32 = 10 * (j + 1) := by
      rw [Nat.mod_eq_of_lt] <;> omega
    have hle : ¬ 10 * (j + 1) > 60000 := by omega
    obtain ⟨s2, h2, hlog⟩ := ih (j + 1) f (issue E t s (Call.delay 10)).2 (by omega) (by omega)
      (by rw [issue_finished E t hE]; exact hs)
    refine ⟨s2, ?_, ?_⟩
    · simp only [smartConfigWait, hs, if_true, hmod, hle, if_false]
      exact h2
    · rw [hlog, issue_log, List.append_assoc]
      rfl

/-- The disconnect loop keeps `ulSmartConfigFinished` clear when the environment never
provisions. -/
theorem disconnectLoop_finished (E : Env) (t : HciTags) (k : Consts)
    (hE : E.NeverProvisioned t) :
    ∀ (fuel : Nat) (s s1 : Sys), s.g.ulSmartConfigFinished = 0 →
      disconnectLoop E t k fuel s = some (Flow.fallthrough s1) →
      s1.g.ulSmartConfigFinished = 0 := by
  intro fuel
  induction fuel with
  | zero =>
    intro s s1 hs h
    simp only [disconnectLoop] at h
    split at h
    · cases h
    · cases h; exact hs
  | succ fuel ih =>
    intro s s1 hs h
    simp only [disconnectLoop] at h
    split at h
    · split at h
      · cases h
      · refine ih _ s1 ?_ h
        rw [issue_finished E t hE, issue_finished E t hE, issue_finished E t hE]
        exact hs
    · cases h; exact hs

/-- When the code before the wait runs through in an environment that never provisions,
the wait is entered with `ulSmartConfigFinished` clear. -/
theorem startSmartConfig_setup_finished (E : Env) (t : HciTags) (k : Consts)
    (hE : E.NeverProvisioned t) (fuel : Nat) (s s1 : Sys)
    (h : startSmartConfig_setup E t k fuel s = some (Flow.fallthrough s1)) :
    s1.g.ulSmartConfigFinished = 0 := by
  simp only [startSmartConfig_setup] at h
  split at h
  · cases h
  · split at h
    · cases h
    · split at h
      · cases h
      · split at h
        · cases h
        · cases h
        · rename_i s3 hloop
          have h3 : s3.g.ulSmartConfigFinished = 0 := by
            refine disconnectLoop_finished E t k hE fuel _ s3 ?_ hloop
            rw [issue_finished E t hE, issue_finished E t hE]
          split at h
          · cases h
          · split at h
            · cases h
            · split at h
              · cases h
              · split at h
                · cases h
                · cases h
                  simp only [issue_finished E t hE]
                  exact h3

/-- C9: in `startSmartConfig`, when the code before the wait runs through (every command
before the wait succeeded) and no provisioning-complete event is ever dispatched, the call
returns false, and the calls it made from the start of the wait are exactly 6000 calls
`delay(10)`: the total delay `D` of the wait is 60 000 ms, so `60000 <= D <= 60010`.  Any
fuel of at least 6001 loop iterations is enough for this result. -/
theorem startSmartConfig_wait_timeout (E : Env) (t : HciTags) (k : Consts) (enableAES : Bool)
    (fuel : Nat) (s s1 : Sys)
    (hsetup : startSmartConfig_setup E t k fuel s = some (Flow.fallthrough s1))
    (hE : E.NeverProvisioned t) (hfuel : 6001 ≤ fuel) :
    ∃ s2, startSmartConfig E t k enableAES fuel s = some (false, s2) ∧
      s2.log = s1.log ++ List.replicate 6000 (Call.delay 10) ∧
      delaySum s2.log = delaySum s1.log + 60000 ∧
      60000 ≤ delaySum s2.log - delaySum s1.log ∧
      delaySum s2.log - delaySum s1.log ≤ 60010 := by
  have h1 := startSmartConfig_setup_finished E t k hE fuel s s1 hsetup
  obtain ⟨s2, hw, hlog⟩ := smartConfigWait_never E t hE 6000 0 fuel s1 (by omega) (by omega) h1
  have hD : delaySum s2.log = delaySum s1.log + 60000 := by
    rw [hlog, delaySum_append, delaySum_replicate]
  refine ⟨s2, ?_, hlog, hD, by omega, by omega⟩
  simp only [startSmartConfig, hsetup]
  simp only [Nat.mul_zero] at hw
  rw [hw]

/-- Witness for C9: an initialised controller on a chip that accepts every command and
never raises an event, with fuel 6001. -/
theorem startSmartConfig_wait_timeout_witness :
    ∃ s2, startSmartConfig quietEnv sampleTags sampleConsts false 6001 sys0 = some (false, s2) ∧
      delaySum s2.log - delaySum
        [Call.wlan_ioctl_set_connection_policy 0 0 0, Call.wlan_ioctl_del_profile 255,
         Call.wlan_stop, Call.delay 1000, Call.wlan_start 0, Call.nvmem_create_entry 12 16,
         Call.aes_write_key _smartConfigKey, Call.wlan_smart_config_set_pfx _cc3000_pfx,
         Call.wlan_smart_config_start 0] = 60000 := by
  obtain ⟨s2, h, -, hD, -, -⟩ := startSmartConfig_wait_timeout quietEnv sampleTags sampleConsts
    false 6001 sys0
    { g := globals0, _initialised := true,
      log := [Call.wlan_ioctl_set_connection_policy 0 0 0, Call.wlan_ioctl_del_profile 255,
         Call.wlan_stop, Call.delay 1000, Call.wlan_start 0, Call.nvmem_create_entry 12 16,
         Call.aes_write_key _smartConfigKey, Call.wlan_smart_config_set_pfx _cc3000_pfx,
         Call.wlan_smart_config_start 0] }
    (by rfl) (fun _ _ _ he => by simp [quietEnv] at he) (by decide)
  exact ⟨s2, h, by rw [hD]; simp⟩

/-! ## Socket client: theorems -/

/-- C7, as stated, fails on a client that is not open: with `_socket = -1`, three buffered
bytes and the cursor at 0 (so `rxCursor < rxFill`), `available()` returns 0, not
`rxFill - rxCursor = 3`. -/
theorem available_closed_counterexample :
    (closedClientWithData._rx_buf_idx : Int) < closedClientWithData.bufsiz ∧
      closedClientWithData.bufsiz - (closedClientWithData._rx_buf_idx : Int) = 3 ∧
      (Client.available quietEnv closedClientWithData sys0).1 = 0 := by
  refine ⟨by decide, by decide, ?_⟩
  simp [Client.available, closedClientWithData]

/-- C7 (amended): for every open client (`_socket >= 0`) with `rxCursor < rxFill`,
`available()` makes no call at all (so no `select`), and returns `rxFill - rxCursor`
reduced to the 8-bit return type, which is `rxFill - rxCursor` itself whenever that count
is below 256. -/
theorem available_buffered (E : Env) (c : Client) (s : Sys) (hopen : 0 ≤ c._socket)
    (h : (c._rx_buf_idx : Int) < c.bufsiz) :
    Client.available E c s = (((c.bufsiz - (c._rx_buf_idx : Int)) % 256).toNat, s) ∧
      (c.bufsiz - (c._rx_buf_idx : Int) < 256 →
        ((Client.available E c s).1 : Int) = c.bufsiz - (c._rx_buf_idx : Int)) := by
  have hneg : ¬ c._socket < 0 := by omega
  have hpos : c.bufsiz > 0 := by omega
  have hval : Client.available E c s = (((c.bufsiz - (c._rx_buf_idx : Int)) % 256).toNat, s) := by
    simp [Client.available, hneg, hpos, h]
  refine ⟨hval, fun hsmall => ?_⟩
  rw [hval]
  show (((c.bufsiz - (c._rx_buf_idx : Int)) % 256).toNat : Int) = _
  rw [Int.toNat_of_nonneg (Int.emod_nonneg _ (by decide))]
  exact Int.emod_eq_of_lt (by omega) hsmall

/-- Witness for C7 (amended): an open client with three buffered bytes and one read. -/
theorem available_buffered_witness :
    Client.available readableEnv openClientWithData sys0 = (2, sys0) :=
  (available_buffered readableEnv openClientWithData sys0 (by decide) (by decide)).1

/-- C8, as stated, fails when the transport still has data to deliver: socket 0 is open,
nothing is buffered, `closed_sockets[0]` is set, but `select` reports the socket readable.
Then `connected()` returns true, the client stays open and the table entry stays set. -/
theorem connected_readable_counterexample :
    0 ≤ openClient0._socket ∧
      ¬ ((openClient0._rx_buf_idx : Int) < openClient0.bufsiz) ∧
      closedGet sysClosed0.g.closed_sockets openClient0._socket.toNat = true ∧
      (Client.connected readableEnv openClient0 sysClosed0).1 = true ∧
      (Client.connected readableEnv openClient0 sysClosed0).2.1._socket = 0 ∧
      closedGet (Client.connected readableEnv openClient0 sysClosed0).2.2.g.closed_sockets 0
        = true := by
  refine ⟨by decide, by decide, by decide, ?_, ?_, ?_⟩ <;>
    simp [Client.connected, Client.available, sockcall, readableEnv, openClient0, sysClosed0,
      closedGet]

/-- C8 (amended): for every open client with no buffered unread data whose socket id is set
in `closed_sockets`, when the readiness check does not report the socket readable (`select`
returns something other than 1), `connected()` returns false, marks the client torn down
(`_socket = -1`), clears the table entry of that id and leaves every other entry and every
other global unchanged; the calls it makes are one `select` and one `closesocket`. -/
theorem connected_peer_closed (E : Env) (c : Client) (s : Sys) (hopen : 0 ≤ c._socket)
    (hempty : ¬ ((c._rx_buf_idx : Int) < c.bufsiz))
    (hclosed : closedGet s.g.closed_sockets c._socket.toNat = true)
    (hsel : E.reply s.log (Call.select (c._socket + 1) c._socket 5000) ≠ 1) :
    Client.connected E c s =
        (false, { c with _socket := -1 },
          { s with
            g := { s.g with
              closed_sockets := closedSet s.g.closed_sockets c._socket.toNat false }
            log := s.log ++ [Call.select (c._socket + 1) c._socket 5000,
              Call.closesocket c._socket] }) ∧
      closedGet (closedSet s.g.closed_sockets c._socket.toNat false) c._socket.toNat = false ∧
      ∀ j : Fin 32, j.val ≠ c._socket.toNat →
        closedSet s.g.closed_sockets c._socket.toNat false j = s.g.closed_sockets j := by
  have hneg : ¬ c._socket < 0 := by omega
  have hbuf : ¬ (c.bufsiz > 0 ∧ (c._rx_buf_idx : Int) < c.bufsiz) := fun hh => hempty hh.2
  have hlt : c._socket.toNat < 32 := by
    by_contra hge
    simp [closedGet, hge] at hclosed
  refine ⟨?_, ?_, ?_⟩
  · simp [Client.connected, Client.available, sockcall, hneg, hbuf, hsel, hclosed]
  · simp [closedGet, closedSet, hlt]
  · intro j hj
    have hne : j ≠ ⟨c._socket.toNat, hlt⟩ := fun hh => hj (by rw [hh])
    simp [closedSet, hlt, Function.update_noteq hne]

/-- Witness for C8 (amended): socket 0, nothing buffered, peer closed, `select` returns 0. -/
theorem connected_peer_closed_witness :
    (Client.connected quietEnv openClient0 sysClosed0).1 = false ∧
      (Client.connected quietEnv openClient0 sysClosed0).2.1._socket = -1 ∧
      (Client.connected quietEnv openClient0 sysClosed0).2.2.log =
        [Call.select 1 0 5000, Call.closesocket 0] := by
  have h := (connected_peer_closed quietEnv openClient0 sysClosed0 (by decide) (by decide)
    (by decide) (by decide)).1
  rw [h]
  exact ⟨rfl, rfl, rfl⟩

/-- With unread data in the buffer, `read()` returns the byte at the cursor and advances
the cursor, without any call, whatever the fuel. -/
theorem read_buffered (E : Env) (fuel : Nat) (c : Client) (s : Sys)
    (h : ¬ (c.bufsiz ≤ 0 ∨ c.bufsiz = (c._rx_buf_idx : Int))) :
    Client.read E fuel c s =
      some (c._rx_buf.getD c._rx_buf_idx 0 % 256, { c with _rx_buf_idx := c._rx_buf_idx + 1 }, s) := by
  cases fuel <;> simp [Client.read, h]

/-- Draining: when the buffer is `pre ++ l ++ post`, the cursor stands after `pre` and the
fill level after `l`, then `l.length` reads return `l` byte by byte without any call. -/
theorem readN_drain (E : Env) (fuel : Nat) (s : Sys) :
    ∀ (l pre post : List Nat) (c : Client), c._rx_buf = pre ++ l ++ post →
      c._rx_buf_idx = pre.length → c.bufsiz = ((pre.length + l.length : Nat) : Int) →
      Client.readN E fuel l.length c s =
        some (l.map (· % 256), { c with _rx_buf_idx := pre.length + l.length }, s) := by
  intro l
  induction l with
  | nil =>
    intro pre post c _ hidx _
    cases c
    simp only [List.length_nil, Client.readN, List.map_nil, Nat.add_zero]
    simp only at hidx
    rw [hidx]
  | cons x l ih =>
    intro pre post c hbuf hidx hsiz
    have hcond : ¬ (c.bufsiz ≤ 0 ∨ c.bufsiz = (c._rx_buf_idx : Int)) := by
      rw [hsiz, hidx]
      simp only [List.length_cons]
      push_cast
      omega
    have hget : c._rx_buf.getD c._rx_buf_idx 0 = x := by
      rw [hbuf, hidx, List.getD_eq_getElem?_getD, List.append_assoc,
        List.getElem?_append_right (Nat.le_refl _)]
      simp
    have hstep := ih (pre ++ [x]) post { c with _rx_buf_idx := c._rx_buf_idx + 1 }
      (by simp [hbuf]) (by simp [hidx]) (by rw [hsiz]; simp only [List.length_append,
        List.length_cons, List.length_nil]; congr 1; omega)
    simp only [List.length_cons, Client.readN, read_buffered E fuel c s hcond, hstep, hget,
      List.map_cons, List.length_append, List.length_nil]
    congr 4
    omega

/-- Reducing bytes modulo 256 changes nothing. -/
theorem map_mod_bytes (bs : List Nat) (h : ∀ b ∈ bs, b < 256) : bs.map (· % 256) = bs := by
  induction bs with
  | nil => rfl
  | cons b bs ih =>
    have hb : b % 256 = b := Nat.mod_eq_of_lt (h b (List.mem_cons_self b bs))
    simp only [List.map_cons, hb]
    rw [ih (fun x hx => h x (List.mem_cons_of_mem b hx))]

/-- C6: a client whose receive buffer is empty (`bufsiz = 0`; the refill resets the cursor,
so the conclusion holds for every cursor, `_rx_buf_idx = 0` included), and a non-empty list
`bs` of bytes no longer than the buffer that the next `recv` returns.  Then
`bs.length` consecutive `read()` calls return the bytes of `bs` in order and the only call
made is that one `recv`; the following `read()` makes exactly one more `recv` when that
`recv` returns data (a positive count), and exactly one more `recv` followed by the close
when it returns the closed code -57.  One unit of fuel is enough.  The conclusion holds for
every socket id, in particular for every open client. -/
theorem read_buffered_sequence (E : Env) (fuel : Nat) (c : Client) (s : Sys) (bs : List Nat)
    (hfill : c.bufsiz = 0) (hne : bs ≠ [])
    (hcap : bs.length ≤ c._rx_buf.length) (hbytes : ∀ b ∈ bs, b < 256)
    (hret : E.reply s.log (Call.recv c._socket c._rx_buf.length) = (bs.length : Int))
    (hrx : E.rx s.log (Call.recv c._socket c._rx_buf.length) = bs) (hfuel : 1 ≤ fuel) :
    ∃ c1 s1, Client.readN E fuel bs.length c s = some (bs, c1, s1) ∧
      s1.log = s.log ++ [Call.recv c._socket c._rx_buf.length] ∧
      (0 < E.reply s1.log (Call.recv c._socket c._rx_buf.length) →
        ∃ v c2 s2, Client.read E fuel c1 s1 = some (v, c2, s2) ∧
          s2.log = s1.log ++ [Call.recv c._socket c._rx_buf.length]) ∧
      (E.reply s1.log (Call.recv c._socket c._rx_buf.length) = -57 →
        ∃ c2 s2, Client.read E fuel c1 s1 = some (0, c2, s2) ∧ c2._socket = -1 ∧
          s2.log = s1.log ++ [Call.recv c._socket c._rx_buf.length,
            Call.closesocket c._socket]) := by
  obtain ⟨f, rfl⟩ : ∃ f, fuel = f + 1 := ⟨fuel - 1, by omega⟩
  obtain ⟨x, l, rfl⟩ : ∃ x l, bs = x :: l := List.exists_cons_of_ne_nil hne
  have hx : x % 256 = x := Nat.mod_eq_of_lt (hbytes x (List.mem_cons_self x l))
  have hl : l.map (· % 256) = l :=
    map_mod_bytes l (fun b hb => hbytes b (List.mem_cons_of_mem x hb))
  have hstore : storeRx c._rx_buf (x :: l) = [x] ++ l ++ c._rx_buf.drop (l.length + 1) := by
    simp [storeRx, List.take_of_length_le hcap]
  have hstoreLen : (storeRx c._rx_buf (x :: l)).length = c._rx_buf.length := by
    rw [hstore]
    simp only [List.length_append, List.length_cons, List.length_nil, List.length_drop]
    simp only [List.length_cons] at hcap
    omega
  have h57 : ¬ (((x :: l).length : Nat) : Int) = -57 := by omega
  -- the client after the refill, before the first byte is handed out
  let cf : Client := { c with bufsiz := ((x :: l).length : Nat),
                              _rx_buf := storeRx c._rx_buf (x :: l), _rx_buf_idx := 0 }
  let s1 : Sys := { s with log := s.log ++ [Call.recv c._socket c._rx_buf.length] }
  have hcf : ¬ (cf.bufsiz ≤ 0 ∨ cf.bufsiz = (cf._rx_buf_idx : Int)) := by
    show ¬ ((((x :: l).length : Nat) : Int) ≤ 0 ∨ (((x :: l).length : Nat) : Int) = ((0 : Nat) : Int))
    simp only [List.length_cons]
    push_cast
    omega
  have hfirst : Client.read E (f + 1) c s = some (x, { cf with _rx_buf_idx := 1 }, s1) := by
    have hc0 : c.bufsiz ≤ 0 ∨ c.bufsiz = (c._rx_buf_idx : Int) := Or.inl (by omega)
    simp only [Client.read, hc0, if_true, sockcall, hret, hrx, h57, if_false]
    rw [read_buffered E f _ _ hcf]
    simp [cf, s1, hstore, hx]
  have hrest := readN_drain E (f + 1) s1 l [x] (c._rx_buf.drop (l.length + 1))
    { cf with _rx_buf_idx := 1 } hstore rfl
    (by show (((x :: l).length : Nat) : Int) = (([x].length + l.length : Nat) : Int)
        simp only [List.length_cons, List.length_nil]
        congr 1
        omega)
  let c1 : Client := { cf with _rx_buf_idx := [x].length + l.length }
  refine ⟨c1, s1, ?_, rfl, ?_, ?_⟩
  · simp only [cf, List.length_cons] at hrest
    simp only [List.length_cons, Client.readN, hfirst]
    simp only [hrest, hl]
    rfl
  · intro hpos
    have hc1 : c1.bufsiz ≤ 0 ∨ c1.bufsiz = (c1._rx_buf_idx : Int) := by
      right
      show (((x :: l).length : Nat) : Int) = (([x].length + l.length : Nat) : Int)
      simp only [List.length_cons, List.length_nil]
      congr 1
      omega
    have hn57 : ¬ E.reply s1.log (Call.recv c._socket c._rx_buf.length) = -57 := by omega
    have hlen1 : c1._rx_buf.length = c._rx_buf.length := hstoreLen
    have hsock1 : c1._socket = c._socket := rfl
    let c2 : Client :=
      { c1 with bufsiz := E.reply s1.log (Call.recv c._socket c._rx_buf.length),
                _rx_buf := storeRx c1._rx_buf
                  (E.rx s1.log (Call.recv c._socket c._rx_buf.length)),
                _rx_buf_idx := 0 }
    let s2 : Sys := { s1 with log := s1.log ++ [Call.recv c._socket c._rx_buf.length] }
    have hafter : ¬ (c2.bufsiz ≤ 0 ∨ c2.bufsiz = (c2._rx_buf_idx : Int)) := by
      show ¬ (E.reply s1.log (Call.recv c._socket c._rx_buf.length) ≤ 0 ∨
        E.reply s1.log (Call.recv c._socket c._rx_buf.length) = ((0 : Nat) : Int))
      omega
    have hread := read_buffered E f c2 s2 hafter
    refine ⟨c2._rx_buf.getD c2._rx_buf_idx 0 % 256,
      { c2 with _rx_buf_idx := c2._rx_buf_idx + 1 }, s2, ?_, rfl⟩
    simp only [Client.read, hc1, if_true, sockcall, hlen1, hsock1, hn57, if_false]
    exact hread
  · intro hclosed
    have hc1 : c1.bufsiz ≤ 0 ∨ c1.bufsiz = (c1._rx_buf_idx : Int) := by
      right
      show (((x :: l).length : Nat) : Int) = (([x].length + l.length : Nat) : Int)
      simp only [List.length_cons, List.length_nil]
      congr 1
      omega
    have hlen1 : c1._rx_buf.length = c._rx_buf.length := hstoreLen
    have hsock1 : c1._socket = c._socket := rfl
    refine ⟨{ c1 with bufsiz := -57,
                      _rx_buf := storeRx c1._rx_buf
                        (E.rx s1.log (Call.recv c._socket c._rx_buf.length)),
                      _socket := -1 },
      { s1 with log := s1.log ++ [Call.recv c._socket c._rx_buf.length] ++
          [Call.closesocket c._socket] }, ?_, rfl, ?_⟩
    · simp only [Client.read, hc1, if_true, sockcall, hlen1, hsock1, hclosed, Client.close]
    · simp [s1]

/-- Witness for C6: `recv` returns `[0x41, 0x42, 0x43]`; three reads return 'A', 'B', 'C'
after one `recv`; the fourth read makes exactly one more `recv` (which reports the closed
code). -/
theorem read_buffered_sequence_witness :
    ∃ c1 s1, Client.readN abcEnv 1 3 openClient0 sys0 = some ([0x41, 0x42, 0x43], c1, s1) ∧
      s1.log = [Call.recv 0 4] ∧
      ∃ c2 s2, Client.read abcEnv 1 c1 s1 = some (0, c2, s2) ∧
        s2.log = [Call.recv 0 4, Call.recv 0 4, Call.closesocket 0] := by
  obtain ⟨c1, s1, h1, hlog, -, hclosed⟩ := read_buffered_sequence abcEnv 1 openClient0 sys0
    [0x41, 0x42, 0x43] rfl (by decide) (by decide) (by decide) rfl rfl (Nat.le_refl 1)
  have hlog1 : s1.log = [Call.recv 0 4] := hlog
  obtain ⟨c2, s2, h2, -, hlog2⟩ := hclosed (by rw [hlog1]; rfl)
  exact ⟨c1, s1, h1, hlog1, c2, s2, h2, by rw [hlog2, hlog1]; rfl⟩

/-- Adding a full-length `send` result to the `size_t` accumulator. -/
theorem addSize_natCast (sizeMod n len : Nat) :
    addSize sizeMod n (len : Int) = (n + len) % sizeMod := by
  unfold addSize
  have h : ((n : Int) + (len : Int)) % (sizeMod : Int) = (((n + len) % sizeMod : Nat) : Int) := by
    push_cast
    rfl
  rw [h, Int.toNat_natCast]

/-- The loop of `fastrprint` on `bs ++ 0 :: rest`, entered with `idx` bytes staged: it ends
with `(idx + bs.length) % C` bytes staged after `(idx + bs.length) / C` sends of `C` bytes
each, all on socket `sd`. -/
theorem fastrprint_loop_spec (E : Env) (C M : Nat) (sd : Int) (hC1 : 1 ≤ C) (hC : C ≤ 255)
    (hfull : ∀ (hist : List Call) (payload : List Nat) (len : Nat),
      E.reply hist (Call.send sd payload len) = (len : Int)) :
    ∀ (bs rest tx : List Nat) (idx n : Nat) (s : Sys), (∀ b ∈ bs, 0 < b ∧ b < 256) →
      tx.length = C → idx < C → n < M →
      ∃ tx2 s2 sends,
        fastrprint_loop E C M sd (bs ++ 0 :: rest) tx idx n s =
          (tx2, (idx + bs.length) % C, (n + C * ((idx + bs.length) / C)) % M, s2) ∧
        tx2.length = C ∧ s2.log = s.log ++ sends ∧
        sendLens sends = List.replicate ((idx + bs.length) / C) C ∧
        sends.length = (idx + bs.length) / C ∧
        ∀ x ∈ sends, Call.isSendOn sd x = true := by
  intro bs
  induction bs with
  | nil =>
    intro rest tx idx n s _ htx hidx hn
    refine ⟨tx, s, [], ?_, htx, by simp, ?_, ?_, by simp⟩
    · simp [fastrprint_loop, Nat.mod_eq_of_lt hidx, Nat.div_eq_of_lt hidx, Nat.mod_eq_of_lt hn]
    · simp [sendLens, Nat.div_eq_of_lt hidx]
    · simp [Nat.div_eq_of_lt hidx]
  | cons b bs ih =>
    intro rest tx idx n s hbs htx hidx hn
    have hb := hbs b (List.mem_cons_self b bs)
    have hbs2 : ∀ x ∈ bs, 0 < x ∧ x < 256 := fun x hx => hbs x (List.mem_cons_of_mem b hx)
    have hbmod : b % 256 = b := Nat.mod_eq_of_lt hb.2
    have hb0 : ¬ b = 0 := by omega
    have hidx1 : (idx + 1) % 256 = idx + 1 := Nat.mod_eq_of_lt (by omega)
    have hset : (tx.set idx b).length = C := by simp [htx]
    by_cases hflush : idx + 1 ≥ C
    · have hidxC : idx + 1 = C := by omega
      have hM : 0 < M := by omega
      have hn1 : addSize M n (sockcall E s (Call.send sd ((tx.set idx b).take C) C)).1 =
          (n + C) % M := by
        show addSize M n (E.reply s.log (Call.send sd ((tx.set idx b).take C) C)) = _
        rw [hfull, addSize_natCast]
      obtain ⟨tx2, s2, sends, hloop, htx2, hlog, hlens, hlen, hall⟩ :=
        ih rest (tx.set idx b) 0 ((n + C) % M)
          (sockcall E s (Call.send sd ((tx.set idx b).take C) C)).2 hbs2 hset (by omega)
          (Nat.mod_lt _ hM)
      have hdiv : (idx + (b :: bs).length) / C = bs.length / C + 1 := by
        have : idx + (b :: bs).length = C + bs.length := by simp only [List.length_cons]; omega
        rw [this, Nat.add_div_left _ (by omega)]
      have hmod : (idx + (b :: bs).length) % C = bs.length % C := by
        have : idx + (b :: bs).length = C + bs.length := by simp only [List.length_cons]; omega
        rw [this, Nat.add_mod_left]
      refine ⟨tx2, s2, Call.send sd ((tx.set idx b).take C) C :: sends, ?_, htx2, ?_, ?_, ?_, ?_⟩
      · rw [List.cons_append]
        simp only [fastrprint_loop, hb0, if_false, hbmod, hidx1, hflush, if_true, hn1]
        rw [hloop, hdiv, hmod]
        simp only [Nat.zero_add, Nat.mod_add_mod, Prod.mk.injEq, true_and, and_true]
        congr 1
        rw [Nat.mul_add, Nat.mul_one]
        omega
      · rw [hlog]
        simp [sockcall]
      · rw [hdiv]
        simp only [sendLens, hlens, Nat.zero_add, List.replicate_succ]
      · rw [hdiv]
        simp only [List.length_cons, hlen, Nat.zero_add]
      · intro x hx
        rcases List.mem_cons.mp hx with hx | hx
        · subst hx
          simp [Call.isSendOn, hset, hidxC]
        · exact hall x hx
    · obtain ⟨tx2, s2, sends, hloop, htx2, hlog, hlens, hlen, hall⟩ :=
        ih rest (tx.set idx b) (idx + 1) n s hbs2 hset (by omega) hn
      have hsum : idx + (b :: bs).length = idx + 1 + bs.length := by
        simp only [List.length_cons]; omega
      refine ⟨tx2, s2, sends, ?_, htx2, hlog, ?_, ?_, hall⟩
      · rw [List.cons_append]
        simp only [fastrprint_loop, hb0, if_false, hbmod, hidx1, hflush]
        rw [hloop, hsum]
      · rw [hsum]; exact hlens
      · rw [hsum]; exact hlen

/-- The lengths of the sends of a concatenated log. -/
theorem sendLens_append (a b : List Call) : sendLens (a ++ b) = sendLens a ++ sendLens b := by
  induction a with
  | nil => rfl
  | cons c a ih => cases c <;> simp [sendLens, ih]

/-- C10: a source of `n = bs.length` non-zero bytes followed by the terminator, a staging
buffer of `C` bytes with `1 <= C <= 255`, and a transport whose every `send` reports the
full length as sent.  Then `fastrprint` returns `n`, and the calls it makes are exactly
`n / C` sends of `C` bytes followed by one final send of `n % C` bytes, all on the client's
socket and each with a payload of the announced length.  (`M = SIZE_MAX + 1`; a source held
in memory has `n < M`.) -/
theorem fastrprint_chunks (E : Env) (C M : Nat) (c : Client) (s : Sys) (bs rest : List Nat)
    (hC1 : 1 ≤ C) (hC : C ≤ 255) (htx : c._tx_buf.length = C)
    (hbs : ∀ b ∈ bs, 0 < b ∧ b < 256) (hM : bs.length < M)
    (hfull : ∀ (hist : List Call) (payload : List Nat) (len : Nat),
      E.reply hist (Call.send c._socket payload len) = (len : Int)) :
    ∃ c2 s2 sends,
      Client.fastrprint E C M c s (bs ++ 0 :: rest) = (bs.length, c2, s2) ∧
      s2.log = s.log ++ sends ∧
      sendLens sends = List.replicate (bs.length / C) C ++ [bs.length % C] ∧
      sends.length = bs.length / C + 1 ∧
      ∀ x ∈ sends, Call.isSendOn c._socket x = true := by
  obtain ⟨tx2, s1, sends, hloop, htx2, hlog, hlens, hlen, hall⟩ :=
    fastrprint_loop_spec E C M c._socket hC1 hC hfull bs rest c._tx_buf 0 0 s hbs htx
      (by omega) (by omega)
  simp only [Nat.zero_add] at hloop hlens hlen
  have hmodlt : bs.length % C < C := Nat.mod_lt _ (by omega)
  refine ⟨{ c with _tx_buf := tx2 },
    (sockcall E s1 (Call.send c._socket (tx2.take (bs.length % C)) (bs.length % C))).2,
    sends ++ [Call.send c._socket (tx2.take (bs.length % C)) (bs.length % C)], ?_, ?_, ?_, ?_, ?_⟩
  · simp only [Client.fastrprint, hloop]
    have hsum : addSize M ((C * (bs.length / C)) % M)
        (sockcall E s1 (Call.send c._socket (tx2.take (bs.length % C)) (bs.length % C))).1
          = bs.length := by
      show addSize M ((C * (bs.length / C)) % M)
        (E.reply s1.log (Call.send c._socket (tx2.take (bs.length % C)) (bs.length % C))) = _
      rw [hfull, addSize_natCast, Nat.mod_add_mod, Nat.div_add_mod, Nat.mod_eq_of_lt hM]
    rw [hsum]
  · show s1.log ++ _ = _
    rw [hlog, List.append_assoc]
  · rw [sendLens_append, hlens]
    rfl
  · simp [hlen]
  · intro x hx
    rcases List.mem_append.mp hx with hx | hx
    · exact hall x hx
    · rw [List.mem_singleton] at hx
      subst hx
      simp only [Call.isSendOn, decide_True, Bool.true_and, decide_eq_true_eq, List.length_take]
      omega

/-- Witness for C10: 130 bytes through a 64-byte staging buffer give exactly three sends of
64, 64 and 2 bytes, and the result 130. -/
theorem fastrprint_chunks_witness :
    ∃ c2 s2 sends,
      Client.fastrprint fullSendEnv 64 65536 openClient64 sys0
          (List.replicate 130 0x41 ++ 0 :: []) = (130, c2, s2) ∧
      s2.log = sends ∧ sendLens sends = [64, 64, 2] ∧ sends.length = 3 := by
  obtain ⟨c2, s2, sends, h, hlog, hlens, hlen, -⟩ := fastrprint_chunks fullSendEnv 64 65536
    openClient64 sys0 (List.replicate 130 0x41) [] (by decide) (by decide) (by simp [openClient64])
    (fun b hb => by rw [List.eq_of_mem_replicate hb]; decide) (by simp)
    (fun _ _ _ => rfl)
  simp only [List.length_replicate] at h hlens hlen
  exact ⟨c2, s2, sends, h, hlog, hlens, hlen⟩

/-! ## Socket client: single-byte write, closed code, chunk contents -/

/-- C11, as stated, fails when the transport reports that nothing was sent: the single
`send` returns `r = 0`, which is not negative, and `write(uint8_t)` returns 0, not 1. -/
theorem writeByte_zero_counterexample :
    ¬ (zeroSendEnv.reply sys0.log (Call.send openClient0._socket [0x41 % 256] 1) < 0) ∧
      (Client.writeByte zeroSendEnv 65536 openClient0 sys0 0x41).1 = 0 ∧
      (Client.writeByte zeroSendEnv 65536 openClient0 sys0 0x41).1 ≠ 1 := by
  refine ⟨by decide, ?_, ?_⟩ <;>
    simp [Client.writeByte, sockcall, zeroSendEnv]

/-- C11 (amended): `write(uint8_t)` makes exactly one call, a `send` of length 1 carrying
the byte `b`.  With `r` the result of that send: if `r < 0` it returns 0; otherwise it
returns `r` itself, converted to `size_t`: 1 when the transport reports the one byte as
sent (`r = 1`), and 0 when it reports that nothing was sent (`r = 0`). -/
theorem writeByte_result (E : Env) (M : Nat) (c : Client) (s : Sys) (b : Nat) (hb : b < 256)
    (hM : 1 < M) :
    (Client.writeByte E M c s b).2 = { s with log := s.log ++ [Call.send c._socket [b] 1] } ∧
      (E.reply s.log (Call.send c._socket [b] 1) < 0 → (Client.writeByte E M c s b).1 = 0) ∧
      (0 ≤ E.reply s.log (Call.send c._socket [b] 1) →
        (Client.writeByte E M c s b).1 =
          (E.reply s.log (Call.send c._socket [b] 1) % (M : Int)).toNat) ∧
      (E.reply s.log (Call.send c._socket [b] 1) = 1 → (Client.writeByte E M c s b).1 = 1) ∧
      (E.reply s.log (Call.send c._socket [b] 1) = 0 → (Client.writeByte E M c s b).1 = 0) := by
  have hbm : b % 256 = b := Nat.mod_eq_of_lt hb
  have hone : ((1 : Int) % (M : Int)).toNat = 1 := by
    rw [Int.emod_eq_of_lt (by decide) (by omega)]
    rfl
  refine ⟨?_, ?_, ?_, ?_, ?_⟩
  · unfold Client.writeByte
    simp only [hbm, sockcall]
    split <;> rfl
  · intro h
    simp [Client.writeByte, sockcall, hbm, h]
  · intro h
    have h2 : ¬ E.reply s.log (Call.send c._socket [b] 1) < 0 := by omega
    simp [Client.writeByte, sockcall, hbm, h2]
  · intro h
    simp [Client.writeByte, sockcall, hbm, h, hone]
  · intro h
    simp [Client.writeByte, sockcall, hbm, h]

/-- Witness for C11 (amended): a failing send gives 0, with one send of the byte logged. -/
theorem writeByte_result_witness :
    (Client.writeByte failSendEnv 65536 openClient0 sys0 0x41).1 = 0 ∧
      (Client.writeByte failSendEnv 65536 openClient0 sys0 0x41).2.log =
        [Call.send 0 [0x41] 1] := by
  have h := writeByte_result failSendEnv 65536 openClient0 sys0 0x41 (by decide) (by decide)
  exact ⟨h.2.1 (by decide), by rw [h.1]; rfl⟩

/-- C17: a client whose buffer is empty or fully consumed (`bufsiz <= 0` or
`bufsiz == _rx_buf_idx`), and a refill `recv` that returns the closed code -57.  Then
`read()` returns 0 at once; the calls it makes are that one `recv` followed by exactly one
`closesocket`, and no further `recv`; the client is left torn down (`_socket = -1`).  One
unit of fuel is enough.  The conclusion holds for every socket id, in particular for every
open client. -/
theorem read_closed_code (E : Env) (fuel : Nat) (c : Client) (s : Sys)
    (hempty : c.bufsiz ≤ 0 ∨ c.bufsiz = (c._rx_buf_idx : Int))
    (hret : E.reply s.log (Call.recv c._socket c._rx_buf.length) = -57) (hfuel : 1 ≤ fuel) :
    ∃ c2 s2, Client.read E fuel c s = some (0, c2, s2) ∧ c2._socket = -1 ∧
      s2.log = s.log ++ [Call.recv c._socket c._rx_buf.length, Call.closesocket c._socket] ∧
      s2.g = s.g := by
  obtain ⟨f, rfl⟩ : ∃ f, fuel = f + 1 := ⟨fuel - 1, by omega⟩
  refine ⟨{ c with bufsiz := -57,
                   _rx_buf := storeRx c._rx_buf
                     (E.rx s.log (Call.recv c._socket c._rx_buf.length)),
                   _socket := -1 },
    { s with log := s.log ++ [Call.recv c._socket c._rx_buf.length] ++
        [Call.closesocket c._socket] }, ?_, rfl, ?_, rfl⟩
  · simp only [Client.read, hempty, if_true, sockcall, hret, Client.close]
  · simp

/-- Witness for C17: an open client with an empty buffer on a transport that reports the
closed code. -/
theorem read_closed_code_witness :
    ∃ c2 s2, Client.read closedEnv 1 openClient0 sys0 = some (0, c2, s2) ∧ c2._socket = -1 ∧
      s2.log = [Call.recv 0 4, Call.closesocket 0] := by
  obtain ⟨c2, s2, h, hs, hlog, -⟩ := read_closed_code closedEnv 1 openClient0 sys0
    (Or.inl (by decide)) rfl (Nat.le_refl 1)
  exact ⟨c2, s2, h, hs, hlog⟩

/-- Storing a byte at the fill position extends the staged prefix by that byte. -/
theorem take_succ_set (tx : List Nat) (idx b : Nat) (h : idx < tx.length) :
    (tx.set idx b).take (idx + 1) = tx.take idx ++ [b] := by
  induction tx generalizing idx with
  | nil => simp at h
  | cons a tx ih =>
    cases idx with
    | zero => simp
    | succ i =>
      simp only [List.length_cons] at h
      simp only [List.set_cons_succ, List.take_succ_cons, List.cons_append]
      rw [ih i (by omega)]

/-- Storing a byte at the fill position leaves the staged prefix as it was. -/
theorem take_set_self (tx : List Nat) (idx b : Nat) :
    (tx.set idx b).take idx = tx.take idx := by
  induction tx generalizing idx with
  | nil => simp
  | cons a tx ih =>
    cases idx with
    | zero => simp
    | succ i =>
      simp only [List.set_cons_succ, List.take_succ_cons]
      rw [ih i]

/-- The payloads of the sends of a concatenated log. -/
theorem sendPayloads_append (a b : List Call) :
    sendPayloads (a ++ b) = sendPayloads a ++ sendPayloads b := by
  induction a with
  | nil => rfl
  | cons c a ih => cases c <;> simp [sendPayloads, ih]

/-- The loop of `fastrprint` on `bs ++ 0 :: rest`, entered with `idx` bytes staged, for any
transport: the payloads sent by the loop followed by what is left staged are the bytes
staged at entry followed by `bs`. -/
theorem fastrprint_loop_payloads (E : Env) (C M : Nat) (sd : Int) (hC : C ≤ 255) :
    ∀ (bs rest tx : List Nat) (idx n : Nat) (s : Sys), (∀ b ∈ bs, 0 < b ∧ b < 256) →
      tx.length = C → idx < C →
      ∃ tx2 idx2 n2 s2 sends,
        fastrprint_loop E C M sd (bs ++ 0 :: rest) tx idx n s = (tx2, idx2, n2, s2) ∧
        tx2.length = C ∧ idx2 < C ∧ s2.log = s.log ++ sends ∧
        (sendPayloads sends).flatten ++ tx2.take idx2 = tx.take idx ++ bs ∧
        sends.length = (sendPayloads sends).length := by
  intro bs
  induction bs with
  | nil =>
    intro rest tx idx n s _ htx hidx
    exact ⟨tx, idx, n, s, [], by simp [fastrprint_loop], htx, hidx, by simp,
      by simp [sendPayloads], by simp [sendPayloads]⟩
  | cons b bs ih =>
    intro rest tx idx n s hbs htx hidx
    have hb := hbs b (List.mem_cons_self b bs)
    have hbs2 : ∀ x ∈ bs, 0 < x ∧ x < 256 := fun x hx => hbs x (List.mem_cons_of_mem b hx)
    have hbmod : b % 256 = b := Nat.mod_eq_of_lt hb.2
    have hb0 : ¬ b = 0 := by omega
    have hidx1 : (idx + 1) % 256 = idx + 1 := Nat.mod_eq_of_lt (by omega)
    have hset : (tx.set idx b).length = C := by simp [htx]
    by_cases hflush : idx + 1 ≥ C
    · have hidxC : idx + 1 = C := by omega
      obtain ⟨tx2, idx2, n2, s2, sends, hloop, htx2, hidx2, hlog, hpay, hlen⟩ :=
        ih rest (tx.set idx b) 0
          (addSize M n (sockcall E s (Call.send sd ((tx.set idx b).take C) C)).1)
          (sockcall E s (Call.send sd ((tx.set idx b).take C) C)).2 hbs2 hset (by omega)
      refine ⟨tx2, idx2, n2, s2, Call.send sd ((tx.set idx b).take C) C :: sends, ?_, htx2,
        hidx2, ?_, ?_, ?_⟩
      · rw [List.cons_append]
        simp only [fastrprint_loop, hb0, if_false, hbmod, hidx1, hflush, if_true]
        exact hloop
      · rw [hlog]
        simp [sockcall]
      · simp only [sendPayloads, List.flatten_cons, List.append_assoc, hpay, List.take_zero,
          List.nil_append]
        rw [← hidxC, take_succ_set tx idx b (by omega)]
        simp
      · simp [sendPayloads, hlen]
    · obtain ⟨tx2, idx2, n2, s2, sends, hloop, htx2, hidx2, hlog, hpay, hlen⟩ :=
        ih rest (tx.set idx b) (idx + 1) n s hbs2 hset (by omega)
      refine ⟨tx2, idx2, n2, s2, sends, ?_, htx2, hidx2, hlog, ?_, hlen⟩
      · rw [List.cons_append]
        simp only [fastrprint_loop, hb0, if_false, hbmod, hidx1, hflush]
        exact hloop
      · rw [hpay, take_succ_set tx idx b (by omega)]
        simp

/-- C19: a source of non-zero bytes `bs` followed by the terminator, a staging buffer of
`C` bytes with `1 <= C <= 255`, and ANY transport (no assumption on what the sends
return).  The calls `fastrprint` makes are all sends, and their payloads, concatenated in
issue order, are exactly `bs`: no byte is dropped, duplicated or reordered, and neither
the terminator nor anything after it is sent. -/
theorem fastrprint_payloads (E : Env) (C M : Nat) (c : Client) (s : Sys) (bs rest : List Nat)
    (hC1 : 1 ≤ C) (hC : C ≤ 255) (htx : c._tx_buf.length = C)
    (hbs : ∀ b ∈ bs, 0 < b ∧ b < 256) :
    ∃ sends,
      (Client.fastrprint E C M c s (bs ++ 0 :: rest)).2.2.log = s.log ++ sends ∧
      (sendPayloads sends).flatten = bs ∧
      sends.length = (sendPayloads sends).length := by
  obtain ⟨tx2, idx2, n2, s2, sends, hloop, htx2, hidx2, hlog, hpay, hlen⟩ :=
    fastrprint_loop_payloads E C M c._socket hC bs rest c._tx_buf 0 0 s hbs htx (by omega)
  refine ⟨sends ++ [Call.send c._socket (tx2.take idx2) idx2], ?_, ?_, ?_⟩
  · simp only [Client.fastrprint, hloop, sockcall]
    rw [hlog, List.append_assoc]
  · rw [sendPayloads_append]
    simp only [sendPayloads, List.flatten_append, List.flatten_cons, List.flatten_nil,
      List.append_nil]
    rw [hpay]
    simp
  · rw [sendPayloads_append]
    simp [sendPayloads, hlen]

/-- Witness for C19: five bytes through a 2-byte staging buffer on a transport whose sends
fail or report wrong counts; the three payloads are `[1,2]`, `[3,4]`, `[5]`. -/
theorem fastrprint_payloads_witness :
    ∃ sends,
      (Client.fastrprint erraticSendEnv 2 65536 openClient2 sys0
        ([1, 2, 3, 4, 5] ++ 0 :: [9, 9])).2.2.log = sends ∧
      (sendPayloads sends).flatten = [1, 2, 3, 4, 5] := by
  obtain ⟨sends, hlog, hpay, -⟩ := fastrprint_payloads erraticSendEnv 2 65536 openClient2 sys0
    [1, 2, 3, 4, 5] [9, 9] (by decide) (by decide) rfl (by decide)
  exact ⟨sends, hlog, hpay⟩

/-! ## Socket client: buffer invariant and dead clients -/

/-- A `recv` never changes the size of the buffer it stores into. -/
theorem storeRx_length (buf data : List Nat) : (storeRx buf data).length = buf.length := by
  simp only [storeRx, List.length_append, List.length_take, List.length_drop]
  omega

/-- What `read()` leaves untouched: the globals and the controller flag are as before, the
buffer keeps its size, and the socket id is either as before or -1. -/
theorem read_frame (E : Env) :
    ∀ (fuel : Nat) (c : Client) (s : Sys) (v : Nat) (c2 : Client) (s2 : Sys),
      Client.read E fuel c s = some (v, c2, s2) →
      s2.g = s.g ∧ s2._initialised = s._initialised ∧
        c2._rx_buf.length = c._rx_buf.length ∧
        (c2._socket = c._socket ∨ c2._socket = -1) := by
  intro fuel
  induction fuel with
  | zero =>
    intro c s v c2 s2 h
    simp only [Client.read] at h
    split at h
    · cases h
    · simp only [Option.some.injEq, Prod.mk.injEq] at h
      obtain ⟨-, rfl, rfl⟩ := h
      exact ⟨rfl, rfl, rfl, Or.inl rfl⟩
  | succ fuel ih =>
    intro c s v c2 s2 h
    simp only [Client.read] at h
    split at h
    · split at h
      · simp only [Client.close, sockcall, Option.some.injEq, Prod.mk.injEq] at h
        obtain ⟨-, rfl, rfl⟩ := h
        exact ⟨rfl, rfl, storeRx_length _ _, Or.inr rfl⟩
      · obtain ⟨hg, hi, hl, hs⟩ := ih _ _ v c2 s2 h
        exact ⟨hg, hi, by rw [hl]; exact storeRx_length _ _, hs⟩
    · simp only [Option.some.injEq, Prod.mk.injEq] at h
      obtain ⟨-, rfl, rfl⟩ := h
      exact ⟨rfl, rfl, rfl, Or.inl rfl⟩

/-- When no `recv` reports more than was asked for, `read()` started with the invariant (or
with a non-positive fill level) ends with the invariant, unless it met the closed code, in
which case the fill level holds -57 and the client is torn down. -/
theorem read_bufInv (E : Env)
    (hrecv : ∀ (hist : List Call) (sd : Int) (len : Nat),
      E.reply hist (Call.recv sd len) ≤ (len : Int)) :
    ∀ (fuel : Nat) (c : Client) (s : Sys) (v : Nat) (c2 : Client) (s2 : Sys),
      c.BufInv ∨ c.bufsiz ≤ 0 → Client.read E fuel c s = some (v, c2, s2) →
      c2.BufInv ∨ (c2.bufsiz = -57 ∧ c2._socket = -1) := by
  intro fuel
  induction fuel with
  | zero =>
    intro c s v c2 s2 hpre h
    simp only [Client.read] at h
    split at h
    · cases h
    · rename_i hcond
      simp only [Option.some.injEq, Prod.mk.injEq] at h
      obtain ⟨-, rfl, rfl⟩ := h
      left
      have hinv : c.BufInv := by
        rcases hpre with hp | hp
        · exact hp
        · exact absurd (Or.inl hp) hcond
      unfold Client.BufInv at hinv ⊢
      simp only
      push_cast
      omega
  | succ fuel ih =>
    intro c s v c2 s2 hpre h
    simp only [Client.read] at h
    split at h
    · split at h
      · simp only [Client.close, sockcall, Option.some.injEq, Prod.mk.injEq] at h
        obtain ⟨-, rfl, rfl⟩ := h
        rename_i h57
        exact Or.inr ⟨h57, rfl⟩
      · refine ih _ _ v c2 s2 ?_ h
        have hle := hrecv s.log c._socket c._rx_buf.length
        by_cases hpos : (sockcall E s (Call.recv c._socket c._rx_buf.length)).1 ≤ 0
        · exact Or.inr hpos
        · left
          unfold Client.BufInv
          simp only [storeRx_length]
          refine ⟨?_, hle⟩
          push_cast
          omega
    · rename_i hcond
      simp only [Option.some.injEq, Prod.mk.injEq] at h
      obtain ⟨-, rfl, rfl⟩ := h
      left
      have hinv : c.BufInv := by
        rcases hpre with hp | hp
        · exact hp
        · exact absurd (Or.inl hp) hcond
      unfold Client.BufInv at hinv ⊢
      simp only
      push_cast
      omega

/-- Whenever the buffer holds unread data, or the first refill `recv` reports a positive
count or the closed code, `read()` returns (one unit of fuel is enough). -/
theorem read_returns (E : Env) (fuel : Nat) (c : Client) (s : Sys) (hfuel : 1 ≤ fuel)
    (h : E.reply s.log (Call.recv c._socket c._rx_buf.length) = -57 ∨
      0 < E.reply s.log (Call.recv c._socket c._rx_buf.length)) :
    (Client.read E fuel c s).isSome = true := by
  obtain ⟨f, rfl⟩ : ∃ f, fuel = f + 1 := ⟨fuel - 1, by omega⟩
  by_cases hcond : c.bufsiz ≤ 0 ∨ c.bufsiz = (c._rx_buf_idx : Int)
  · rcases h with h | h
    · simp [Client.read, hcond, sockcall, h, Client.close]
    · have hn : ¬ E.reply s.log (Call.recv c._socket c._rx_buf.length) = -57 := by omega
      simp only [Client.read, hcond, if_true, sockcall, hn, if_false]
      rw [read_buffered]
      · rfl
      · simp only
        push_cast
        omega
  · rw [read_buffered E (f + 1) c s hcond]
    rfl

/-- C13, as stated, fails for the closed code: an open client with an empty buffer satisfies
the invariant, but after a `read()` whose `recv` returns -57 the fill level `bufsiz` is -57,
below the cursor, so `rxCursor <= rxFill` no longer holds. -/
theorem read_closed_breaks_bufInv_counterexample :
    openClient0.BufInv ∧
      ∃ c2 s2, Client.read closedEnv 1 openClient0 sys0 = some (0, c2, s2) ∧
        c2.bufsiz = -57 ∧ ¬ c2.BufInv :=
  ⟨by decide,
   { openClient0 with bufsiz := -57, _socket := -1 },
   { sys0 with log := [Call.recv 0 4, Call.closesocket 0] }, rfl, rfl, by decide⟩

/-- C13 (amended): the invariant `0 <= _rx_buf_idx <= bufsiz <= sizeof(_rx_buf)` holds for
every client made by the socket-id constructor.  On a transport whose `recv` never reports
more than was asked for, it is preserved by `connected()`, `close()` and `fastrprint`, and
by every `read()` that returns, whether its `recv` calls report zero or a negative error
code first, with one exception: a `read()` that meets the closed code leaves `bufsiz = -57`
and the client torn down.  (`available()`, `read(buf, len)`, `write(buf, len)` and
`write(byte)` assign no field of the client; their embeddings return no client.) -/
theorem bufInv_preserved (E : Env) (C M : Nat)
    (hrecv : ∀ (hist : List Call) (sd : Int) (len : Nat),
      E.reply hist (Call.recv sd len) ≤ (len : Int)) :
    (∀ (mem : Client) (sd : Nat), (Client.mkOpen mem sd).BufInv) ∧
      (∀ (fuel : Nat) (c : Client) (s : Sys) (v : Nat) (c2 : Client) (s2 : Sys),
        c.BufInv → Client.read E fuel c s = some (v, c2, s2) →
        c2.BufInv ∨ (c2.bufsiz = -57 ∧ c2._socket = -1)) ∧
      (∀ (c : Client) (s : Sys), c.BufInv → (Client.connected E c s).2.1.BufInv) ∧
      (∀ (c : Client) (s : Sys), c.BufInv → (Client.close E c s).2.1.BufInv) ∧
      (∀ (c : Client) (s : Sys) (ifsh : List Nat),
        c.BufInv → (Client.fastrprint E C M c s ifsh).2.1.BufInv) := by
  refine ⟨?_, ?_, ?_, ?_, ?_⟩
  · intro mem sd
    simp [Client.BufInv, Client.mkOpen]
  · intro fuel c s v c2 s2 hinv h
    exact read_bufInv E hrecv fuel c s v c2 s2 (Or.inl hinv) h
  · intro c s hinv
    simp only [Client.connected]
    split
    · exact hinv
    · split <;> exact hinv
  · intro c s hinv
    exact hinv
  · intro c s ifsh hinv
    exact hinv

/-- Witness for C13 (amended): on a transport whose `recv` delivers three bytes, a client
made by the constructor satisfies the invariant, and so does the client after a `read()`
that refills the buffer and hands out the first byte. -/
theorem bufInv_preserved_witness :
    (Client.mkOpen openClient0 5).BufInv ∧
      ∃ c2 s2, Client.read threeByteEnv 1 openClient0 sys0 = some (0x41, c2, s2) ∧
        c2.BufInv := by
  have h := bufInv_preserved threeByteEnv 64 65536
    (fun _ _ len => by simp only [threeByteEnv]; omega)
  have hread : Client.read threeByteEnv 1 openClient0 sys0 =
      some (0x41, { openClient0 with bufsiz := 3, _rx_buf := [0x41, 0x42, 0x43, 0],
                                     _rx_buf_idx := 1 },
        { sys0 with log := [Call.recv 0 4] }) := rfl
  refine ⟨h.1 openClient0 5, _, _, hread, ?_⟩
  exact (h.2.1 1 openClient0 sys0 _ _ _ (by decide) hread).resolve_right (by decide)

/-- C14: a client with `_socket = -1`, any transport.  `connected()` returns false and
`available()` returns 0, both without any call and without changing anything.  After
`close()`, after `fastrprint`, and after every `read()` that returns, `_socket` is still
-1; and `read()` does return whenever its first refill `recv` reports a positive count or
the closed code.  (`available()`, `read(buf, len)`, `write(buf, len)` and `write(byte)`
assign no field of the client; their embeddings return no client.) -/
theorem dead_client_stays_dead (E : Env) (C M : Nat) (c : Client) (s : Sys)
    (hdead : c._socket = -1) :
    Client.connected E c s = (false, c, s) ∧
      Client.available E c s = (0, s) ∧
      (Client.close E c s).2.1._socket = -1 ∧
      (∀ ifsh : List Nat, (Client.fastrprint E C M c s ifsh).2.1._socket = -1) ∧
      (∀ (fuel v : Nat) (c2 : Client) (s2 : Sys),
        Client.read E fuel c s = some (v, c2, s2) → c2._socket = -1) ∧
      (∀ fuel : Nat, 1 ≤ fuel →
        (E.reply s.log (Call.recv c._socket c._rx_buf.length) = -57 ∨
          0 < E.reply s.log (Call.recv c._socket c._rx_buf.length)) →
        (Client.read E fuel c s).isSome = true) := by
  have hneg : c._socket < 0 := by rw [hdead]; decide
  refine ⟨?_, ?_, rfl, ?_, ?_, ?_⟩
  · simp [Client.connected, hneg]
  · simp [Client.available, hneg]
  · intro ifsh
    exact hdead
  · intro fuel v c2 s2 h
    rcases (read_frame E fuel c s v c2 s2 h).2.2.2 with h2 | h2
    · rw [h2, hdead]
    · exact h2
  · intro fuel hfuel h
    exact read_returns E fuel c s hfuel h

/-- Witness for C14: a closed client on a transport that would report data readable. -/
theorem dead_client_stays_dead_witness :
    Client.connected readableEnv deadClient sys0 = (false, deadClient, sys0) ∧
      Client.available readableEnv deadClient sys0 = (0, sys0) ∧
      (Client.close readableEnv deadClient sys0).2.1._socket = -1 :=
  ⟨(dead_client_stays_dead readableEnv 64 65536 deadClient sys0 rfl).1,
   (dead_client_stays_dead readableEnv 64 65536 deadClient sys0 rfl).2.1,
   (dead_client_stays_dead readableEnv 64 65536 deadClient sys0 rfl).2.2.1⟩

/-! ## Socket factory: theorems -/

/-- A handle in the `uint16_t` range survives the conversions of `connectTCP` and
`connectUDP`. -/
theorem handle_conversions (h : Int) (h0 : 0 ≤ h) (h1 : h < 65536) :
    (h % 2 ^ 32).toNat = h.toNat ∧ h.toNat ≠ 2 ^ 32 - 1 ∧ h.toNat % 2 ^ 16 = h.toNat ∧
      ((h.toNat : Nat) : Int) = h := by
  have e1 : h % 2 ^ 32 = h := Int.emod_eq_of_lt h0 (by omega)
  have e2 : ((h.toNat : Nat) : Int) = h := Int.toNat_of_nonneg h0
  refine ⟨by rw [e1], by omega, ?_, e2⟩
  apply Nat.mod_eq_of_lt
  omega

/-- The contract holds for a factory body of the shape shared by `connectTCP` and
`connectUDP`. -/
theorem factory_body_contract (E : Env) (mem : Client) (s : Sys) (create : Call)
    (conn : Int → Call) :
    FactoryContract E mem s create conn
      (if ((sockcall E s create).1 % 2 ^ 32).toNat = 2 ^ 32 - 1 then
          (Client.mkClosed mem, (sockcall E s create).2)
        else if (sockcall E (sockcall E s create).2
            (conn (((sockcall E s create).1 % 2 ^ 32).toNat : Int))).1 = -1 then
          (Client.mkClosed mem,
            (sockcall E (sockcall E (sockcall E s create).2
                (conn (((sockcall E s create).1 % 2 ^ 32).toNat : Int))).2
              (Call.closesocket (((sockcall E s create).1 % 2 ^ 32).toNat : Int))).2)
        else
          (Client.mkOpen mem (((sockcall E s create).1 % 2 ^ 32).toNat % 2 ^ 16),
            (sockcall E (sockcall E s create).2
              (conn (((sockcall E s create).1 % 2 ^ 32).toNat : Int))).2)) := by
  have hdeadConn : ∀ s2 : Sys, (Client.connected E (Client.mkClosed mem) s2).1 = false := by
    intro s2
    simp [Client.connected, Client.mkClosed]
  refine ⟨?_, ?_⟩
  · intro hfail
    have hr : (sockcall E s create).1 = -1 := hfail
    have hconv : (((-1 : Int)) % 2 ^ 32).toNat = 2 ^ 32 - 1 := by decide
    simp only [hr, hconv, if_true]
    exact ⟨rfl, rfl, hdeadConn _⟩
  · intro h h0 h1 hcreate
    obtain ⟨e1, e2, e3, e4⟩ := handle_conversions h h0 h1
    have hr : (sockcall E s create).1 = h := hcreate
    simp only [hr, e1, e2, if_false, e3, e4]
    refine ⟨?_, ?_⟩
    · intro hfail
      have hc : (sockcall E (sockcall E s create).2 (conn h)).1 = -1 := hfail
      simp only [hc, if_true]
      refine ⟨?_, rfl, hdeadConn _⟩
      simp [sockcall]
    · intro hok
      have hc : ¬ (sockcall E (sockcall E s create).2 (conn h)).1 = -1 := hok
      simp only [hc, if_false]
      refine ⟨?_, ?_⟩
      · simp [sockcall]
      · simp [Client.mkOpen, e4]

/-- C15: for every destination address and port, `connectTCP` and `connectUDP` meet the
factory contract.  When `socket` reports an error (-1), or when it returns a handle and
`connect` reports an error (-1), the returned client is not open (`_socket = -1`, and
`connected()` on it is false); in the second case the created socket is closed by exactly
one `closesocket` before returning.  When both succeed, the returned client's `_socket` is
the created handle. -/
theorem connect_factories (E : Env) (k : SockConsts) (mem : Client) (s : Sys)
    (destIP destPort : Nat) :
    FactoryContract E mem s (Call.socket k.AF_INET k.SOCK_STREAM k.IPPROTO_TCP)
        (fun h => Call.connect h k.AF_INET (sa_data destIP destPort) k.sizeofSockaddr)
        (connectTCP E k mem s destIP destPort) ∧
      FactoryContract E mem s (Call.socket k.AF_INET k.SOCK_DGRAM k.IPPROTO_UDP)
        (fun h => Call.connect h k.AF_INET (sa_data destIP destPort) k.sizeofSockaddr)
        (connectUDP E k mem s destIP destPort) :=
  ⟨factory_body_contract E mem s _ _, factory_body_contract E mem s _ _⟩

/-- Witness for C15: a failing `socket` gives a client that is not open; a failing
`connect` on handle 3 is followed by exactly one `closesocket(3)`; when both calls succeed
the client carries the handle. -/
theorem connect_factories_witness :
    (connectTCP noSocketEnv sampleSockConsts deadClient sys0 0xC0A80001 80).1._socket = -1 ∧
      (connectTCP noConnectEnv sampleSockConsts deadClient sys0 0xC0A80001 80).2.log =
        [Call.socket 2 1 6, Call.connect 3 2 (sa_data 0xC0A80001 80) 16,
          Call.closesocket 3] ∧
      (connectUDP quietEnv sampleSockConsts deadClient sys0 0xC0A80001 53).1._socket = 0 := by
  refine ⟨?_, ?_, ?_⟩
  · exact ((connect_factories noSocketEnv sampleSockConsts deadClient sys0 0xC0A80001
      80).1.1 rfl).2.1
  · rw [(((connect_factories noConnectEnv sampleSockConsts deadClient sys0 0xC0A80001
      80).1.2 3 (by decide) (by decide) rfl).1 rfl).1]
    rfl
  · exact (((connect_factories quietEnv sampleSockConsts deadClient sys0 0xC0A80001
      53).2.2 0 (by decide) (by decide) rfl).2 (by decide)).2

/-! ## Bring-up: theorems -/

/-- C16, evaluated where it fails: on a board whose interrupt pin is valid, let the chip
reject both `wlan_ioctl_set_connection_policy` and `wlan_ioctl_del_profile` (each returns
-1) and accept the event mask.  `begin` does not abort: it goes on to issue the remaining
commands, returns true and sets `_initialised`, although two bring-up commands failed. -/
theorem begin_ignores_failed_commands :
    policyFailEnv.reply [Call.init_spi, Call.wlan_init, Call.wlan_start 0]
        (Call.wlan_ioctl_set_connection_policy 0 0 0) = -1 ∧
      (begin policyFailEnv sampleTags sampleConsts dreqinttable328 3 0xFF 0 sysNew).1 = true ∧
      (begin policyFailEnv sampleTags sampleConsts dreqinttable328 3 0xFF 0
        sysNew).2.2._initialised = true ∧
      (begin policyFailEnv sampleTags sampleConsts dreqinttable328 3 0xFF 0 sysNew).2.2.log =
        [Call.init_spi, Call.wlan_init, Call.wlan_start 0,
          Call.wlan_ioctl_set_connection_policy 0 0 0, Call.wlan_ioctl_del_profile 255,
          Call.wlan_set_event_mask (0x8004 ||| 0x8200)] :=
  ⟨rfl, rfl, rfl, rfl⟩

/-- The part of C16 that the code does implement: when `wlan_set_event_mask` fails, `begin`
returns false and `_initialised` keeps its value; when it succeeds (and the interrupt pin
is valid) `begin` returns true and sets `_initialised`. -/
theorem begin_event_mask_checked (E : Env) (t : HciTags) (k : Consts) (tbl : List Nat)
    (g_irqPin g_IRQnum patchReq : Nat) (s : Sys)
    (hq : ∀ (hist : List Call) (c : Call), E.async hist c = []) :
    ((begin E t k tbl g_irqPin g_IRQnum patchReq s).1 = false →
        (begin E t k tbl g_irqPin g_IRQnum patchReq s).2.2._initialised = s._initialised) ∧
      ((begin E t k tbl g_irqPin g_IRQnum patchReq s).1 = true →
        (begin E t k tbl g_irqPin g_IRQnum patchReq s).2.2._initialised = true ∧
        E.reply (s.log ++ [Call.init_spi, Call.wlan_init, Call.wlan_start patchReq,
            Call.wlan_ioctl_set_connection_policy 0 0 0, Call.wlan_ioctl_del_profile 255])
          (Call.wlan_set_event_mask
            (k.HCI_EVNT_WLAN_UNSOL_INIT ||| k.HCI_EVNT_WLAN_KEEPALIVE)) = 0) := by
  simp only [begin, issue, hq, deliver, List.foldl_nil, List.append_assoc,
    List.singleton_append, List.cons_append, List.nil_append, CC3000_SUCCESS]
  split
  · simp
  · split
    · simp
    · rename_i h1 h2
      simp only [ne_eq, not_not] at h2
      simp [h2]

/-! ## Connect with retry: theorems -/

/-- In a quiet environment a command only returns its value and extends the log. -/
theorem issue_quiet (E : Env) (t : HciTags) (hq : E.Quiet) (s : Sys) (c : Call) :
    issue E t s c = (E.reply s.log c, { s with log := s.log ++ [c] }) := by
  simp [issue, hq s.log c, deliver]

/-- Once `timer` is used up, the wait loop of `connectToAP` does nothing, whatever the
fuel. -/
theorem connectToAP_wait_expired (E : Env) (t : HciTags) (fuel : Nat) (timer : Int) (s : Sys)
    (h : timer ≤ 0) : connectToAP_wait E t fuel timer s = some (timer, s) := by
  have hn : ¬ timer > 0 := by omega
  cases fuel <;> simp [connectToAP_wait, hn]

/-- In a quiet environment with the link down, the wait loop entered with `timer = 10 * m`
makes exactly `m` calls `delay(10)` and leaves `timer = 0`. -/
theorem connectToAP_wait_quiet (E : Env) (t : HciTags) (hq : E.Quiet) :
    ∀ (m fuel : Nat) (s : Sys), 10 * m ≤ 32767 → m ≤ fuel → s.g.ulCC3000Connected = 0 →
      connectToAP_wait E t fuel ((10 * m : Nat) : Int) s =
        some (0, { s with log := s.log ++ List.replicate m (Call.delay 10) }) := by
  intro m
  induction m with
  | zero =>
    intro fuel s _ _ _
    rw [connectToAP_wait_expired E t fuel _ s (by simp)]
    simp
  | succ m ih =>
    intro fuel s hm hfuel hs
    obtain ⟨f, rfl⟩ : ∃ f, fuel = f + 1 := ⟨fuel - 1, by omega⟩
    have hpos : ((10 * (m + 1) : Nat) : Int) > 0 := by omega
    have hnc : checkConnected s = false := by simp [checkConnected, hs]
    have hstep : toInt16 (((10 * (m + 1) : Nat) : Int) - 10) = ((10 * m : Nat) : Int) := by
      unfold toInt16
      omega
    simp only [connectToAP_wait, hpos, hnc, Bool.not_false, and_self, if_true, hstep,
      issue_quiet E t hq]
    rw [ih f { s with log := s.log ++ [Call.delay 10] } (by omega) (by omega) hs]
    simp [List.replicate_succ]

/-- In a quiet environment that accepts every command, one pass of `connectToAP` on an
open network (initialised controller) is the scan-and-connect calls followed by the wait
loop. -/
theorem connectToAP_attempt_quiet (E : Env) (t : HciTags) (k : Consts) (hq : E.Quiet)
    (hr : ∀ (hist : List Call) (c : Call), E.reply hist c = 0) (wfuel : Nat)
    (ssid key : List Nat) (timer : Int) (s : Sys) (hi : s._initialised = true) :
    connectToAP_attempt E t k wfuel ssid key 0 timer s =
      connectToAP_wait E t wfuel timer { s with log := s.log ++ attemptCalls k ssid } := by
  simp [connectToAP_attempt, scanSSIDs, connectOpen, issue_quiet E t hq, hr, hi,
    CC3000_SUCCESS, attemptCalls]

/-- C18, evaluated where it fails: a chip that accepts every command but never reports the
link up, with `WLAN_CONNECT_TIMEOUT = 10000`.  The first pass of `connectToAP` polls for
the full timeout (1000 calls `delay(10)`) and leaves `timer = 0`.  The second pass, entered
with that `timer`, makes the scan-and-connect calls and then does not wait at all: it
issues no `delay(10)`.  `timer` is set only once, before the loop. -/
theorem connectToAP_second_attempt_no_wait :
    connectToAP_attempt quietEnv sampleTags sampleConsts 1000 [0x41] [] 0
        (toInt16 (sampleConsts.WLAN_CONNECT_TIMEOUT : Int)) sys0 =
      some (0, { sys0 with
        log := attemptCalls sampleConsts [0x41] ++ List.replicate 1000 (Call.delay 10) }) ∧
    connectToAP_attempt quietEnv sampleTags sampleConsts 1000 [0x41] [] 0 0
        { sys0 with
          log := attemptCalls sampleConsts [0x41] ++ List.replicate 1000 (Call.delay 10) } =
      some (0, { sys0 with
        log := attemptCalls sampleConsts [0x41] ++ List.replicate 1000 (Call.delay 10) ++
          attemptCalls sampleConsts [0x41] }) := by
  have hq : quietEnv.Quiet := fun _ _ => rfl
  have hr : ∀ (hist : List Call) (c : Call), quietEnv.reply hist c = 0 := fun _ _ => rfl
  refine ⟨?_, ?_⟩
  · rw [connectToAP_attempt_quiet quietEnv sampleTags sampleConsts hq hr 1000 [0x41] [] _ sys0
      rfl]
    have ht : toInt16 (sampleConsts.WLAN_CONNECT_TIMEOUT : Int) = ((10 * 1000 : Nat) : Int) := by
      decide
    rw [ht, connectToAP_wait_quiet quietEnv sampleTags hq 1000 1000 _ (by decide)
      (Nat.le_refl _) rfl]
    rfl
  · rw [connectToAP_attempt_quiet quietEnv sampleTags sampleConsts hq hr 1000 [0x41] [] 0 _
      rfl]
    rw [connectToAP_wait_expired quietEnv sampleTags 1000 0 _ (Int.le_refl 0)]

/-! ## Session State frame -/

/-- In a quiet environment a command leaves the globals and the controller flag alone. -/
theorem issue_quiet_g (E : Env) (t : HciTags) (hq : E.Quiet) (s : Sys) (c : Call) :
    (issue E t s c).2.g = s.g ∧ (issue E t s c).2._initialised = s._initialised := by
  rw [issue_quiet E t hq]
  exact ⟨rfl, rfl⟩

/-- In a quiet environment `connectOpen` leaves the globals alone. -/
theorem connectOpen_quiet_g (E : Env) (t : HciTags) (k : Consts) (hq : E.Quiet) (s : Sys)
    (ssid : List Nat) : (connectOpen E t k s ssid).2.g = s.g := by
  simp only [connectOpen, issue_quiet E t hq]
  repeat' split
  all_goals rfl

/-- In a quiet environment `connectSecure` leaves the globals alone. -/
theorem connectSecure_quiet_g (E : Env) (t : HciTags) (hq : E.Quiet) (s : Sys)
    (ssid key : List Nat) (secMode : Int) : (connectSecure E t s ssid key secMode).2.g = s.g := by
  simp only [connectSecure, issue_quiet E t hq]
  repeat' split
  all_goals rfl

/-- In a quiet environment `scanSSIDs` leaves the globals alone. -/
theorem scanSSIDs_quiet_g (E : Env) (t : HciTags) (hq : E.Quiet) (s : Sys) (time : Nat) :
    (scanSSIDs E t s time).2.g = s.g := by
  simp only [scanSSIDs, issue_quiet E t hq]
  repeat' split
  all_goals rfl

/-- In a quiet environment the wait loop of `connectToAP` leaves the globals alone. -/
theorem connectToAP_wait_quiet_g (E : Env) (t : HciTags) (hq : E.Quiet) :
    ∀ (fuel : Nat) (timer : Int) (s : Sys) (r : Int × Sys),
      connectToAP_wait E t fuel timer s = some r → r.2.g = s.g := by
  intro fuel
  induction fuel with
  | zero =>
    intro timer s r h
    simp only [connectToAP_wait] at h
    split at h
    · cases h
    · cases h; rfl
  | succ fuel ih =>
    intro timer s r h
    simp only [connectToAP_wait] at h
    split at h
    · rw [ih _ _ r h]
      exact (issue_quiet_g E t hq s _).1
    · cases h; rfl

/-- In a quiet environment one pass of `connectToAP` leaves the globals alone. -/
theorem connectToAP_attempt_quiet_g (E : Env) (t : HciTags) (k : Consts) (hq : E.Quiet)
    (wfuel : Nat) (ssid key : List Nat) (secmode : Nat) (timer : Int) (s : Sys)
    (r : Int × Sys) (h : connectToAP_attempt E t k wfuel ssid key secmode timer s = some r) :
    r.2.g = s.g := by
  have h3 : ((scanSSIDs E t (issue E t (scanSSIDs E t s 4000).2 (Call.delay 4500)).2 0).2).g
      = s.g := by
    rw [scanSSIDs_quiet_g E t hq, (issue_quiet_g E t hq _ _).1, scanSSIDs_quiet_g E t hq]
  simp only [connectToAP_attempt] at h
  split at h
  · split at h
    · cases h
      rw [connectOpen_quiet_g E t k hq, h3]
    · rw [connectToAP_wait_quiet_g E t hq _ _ _ r h, connectOpen_quiet_g E t k hq, h3]
  · split at h
    · cases h
      rw [connectSecure_quiet_g E t hq, h3]
    · rw [connectToAP_wait_quiet_g E t hq _ _ _ r h, connectSecure_quiet_g E t hq, h3]

/-- In a quiet environment the retry loop of `connectToAP` leaves the globals alone. -/
theorem connectToAP_loop_quiet_g (E : Env) (t : HciTags) (k : Consts) (hq : E.Quiet)
    (wfuel : Nat) (ssid key : List Nat) (secmode : Nat) :
    ∀ (fuel : Nat) (timer : Int) (s s2 : Sys),
      connectToAP_loop E t k wfuel ssid key secmode fuel timer s = some s2 → s2.g = s.g := by
  intro fuel
  induction fuel with
  | zero =>
    intro timer s s2 h
    simp [connectToAP_loop] at h
  | succ fuel ih =>
    intro timer s s2 h
    simp only [connectToAP_loop] at h
    split at h
    · cases h
    · rename_i r hr
      have hg := connectToAP_attempt_quiet_g E t k hq wfuel ssid key secmode timer s r hr
      split at h
      · rw [ih _ _ s2 h, hg]
      · cases h
        exact hg

/-- In a quiet environment the disconnect loop leaves the globals alone. -/
theorem disconnectLoop_quiet_g (E : Env) (t : HciTags) (k : Consts) (hq : E.Quiet) :
    ∀ (fuel : Nat) (s : Sys) (f : Flow), disconnectLoop E t k fuel s = some f →
      f.sys.g = s.g := by
  intro fuel
  induction fuel with
  | zero =>
    intro s f h
    simp only [disconnectLoop] at h
    split at h
    · cases h
    · cases h; rfl
  | succ fuel ih =>
    intro s f h
    simp only [disconnectLoop, issue_quiet E t hq] at h
    split at h
    · split at h
      · cases h; rfl
      · rw [ih _ f h]
    · cases h; rfl

/-- In a quiet environment the code of `startSmartConfig` before the wait changes the
globals only by the reset on entry. -/
theorem startSmartConfig_setup_quiet_g (E : Env) (t : HciTags) (k : Consts) (hq : E.Quiet)
    (fuel : Nat) (s : Sys) (f : Flow) (h : startSmartConfig_setup E t k fuel s = some f) :
    f.sys.g = smartConfigReset s.g := by
  simp only [startSmartConfig_setup, issue_quiet E t hq] at h
  split at h
  · cases h; rfl
  · split at h
    · cases h; rfl
    · split at h
      · cases h; rfl
      · split at h
        · cases h
        · rename_i r s3 hloop
          cases h
          exact disconnectLoop_quiet_g E t k hq fuel _ _ hloop
        · rename_i s3 hloop
          have h3 : s3.g = smartConfigReset s.g :=
            disconnectLoop_quiet_g E t k hq fuel _ _ hloop
          split at h
          · cases h; exact h3
          · split at h
            · cases h; exact h3
            · split at h
              · cases h; exact h3
              · split at h
                · cases h; exact h3
                · cases h; exact h3

/-- In a quiet environment the wait for the smart config data leaves the globals alone. -/
theorem smartConfigWait_quiet_g (E : Env) (t : HciTags) (hq : E.Quiet) :
    ∀ (fuel timeout : Nat) (s : Sys) (f : Flow), smartConfigWait E t fuel timeout s = some f →
      f.sys.g = s.g := by
  intro fuel
  induction fuel with
  | zero =>
    intro timeout s f h
    simp only [smartConfigWait] at h
    split at h
    · cases h
    · cases h; rfl
  | succ fuel ih =>
    intro timeout s f h
    simp only [smartConfigWait, issue_quiet E t hq] at h
    split at h
    · split at h
      · cases h; rfl
      · rw [ih _ _ f h]
    · cases h; rfl

/-- In a quiet environment the wait for the connection leaves the globals alone. -/
theorem smartConfigConnectWait_quiet_g (E : Env) (t : HciTags) (k : Consts) (hq : E.Quiet) :
    ∀ (fuel timeout : Nat) (s : Sys) (f : Flow),
      smartConfigConnectWait E t k fuel timeout s = some f → f.sys.g = s.g := by
  intro fuel
  induction fuel with
  | zero =>
    intro timeout s f h
    simp only [smartConfigConnectWait] at h
    split at h
    · cases h
    · cases h; rfl
  | succ fuel ih =>
    intro timeout s f h
    simp only [smartConfigConnectWait, issue_quiet E t hq] at h
    split at h
    · split at h
      · cases h; rfl
      · rw [ih _ _ f h]
    · cases h; rfl

/-- In a quiet environment the code of `startSmartConfig` after the wait leaves the globals
alone. -/
theorem startSmartConfig_finish_quiet_g (E : Env) (t : HciTags) (k : Consts) (hq : E.Quiet)
    (enableAES : Bool) (fuel : Nat) (s : Sys) (r : Bool × Sys)
    (h : startSmartConfig_finish E t k enableAES fuel s = some r) : r.2.g = s.g := by
  have hwait : ∀ (s4 s5 : Sys) (f : Flow),
      smartConfigConnectWait E t k fuel 0 s4 = some f → f.sys = s5 → s4.g = s.g →
      s5.g = s.g := by
    intro s4 s5 f hw hf h4
    rw [← hf, smartConfigConnectWait_quiet_g E t k hq _ _ _ _ hw, h4]
  cases enableAES
  · simp only [startSmartConfig_finish, issue_quiet E t hq, Bool.false_eq_true, if_false,
      ne_eq, not_true_eq_false] at h
    split at h
    · cases h; rfl
    · split at h
      · cases h; rfl
      · split at h
        · cases h
        · rename_i b s5 hw
          cases h
          exact hwait _ s5 _ hw rfl rfl
        · rename_i s5 hw
          have h5 : s5.g = s.g := hwait _ s5 _ hw rfl rfl
          split at h
          · cases h; exact h5
          · cases h; exact h5
  · simp only [startSmartConfig_finish, issue_quiet E t hq, if_true] at h
    split at h
    · cases h; rfl
    · split at h
      · cases h; rfl
      · split at h
        · cases h; rfl
        · split at h
          · cases h
          · rename_i b s5 hw
            cases h
            exact hwait _ s5 _ hw rfl rfl
          · rename_i s5 hw
            have h5 : s5.g = s.g := hwait _ s5 _ hw rfl rfl
            split at h
            · cases h; exact h5
            · cases h; exact h5

/-- In a quiet environment `startSmartConfig` changes the globals only by the reset on
entry. -/
theorem startSmartConfig_quiet_g (E : Env) (t : HciTags) (k : Consts) (hq : E.Quiet)
    (enableAES : Bool) (fuel : Nat) (s : Sys) (r : Bool × Sys)
    (h : startSmartConfig E t k enableAES fuel s = some r) :
    r.2.g = smartConfigReset s.g := by
  simp only [startSmartConfig] at h
  split at h
  · cases h
  · rename_i b s1 hs
    cases h
    exact startSmartConfig_setup_quiet_g E t k hq fuel s _ hs
  · rename_i s1 hs
    have h1 : s1.g = smartConfigReset s.g := startSmartConfig_setup_quiet_g E t k hq fuel s _ hs
    split at h
    · cases h
    · rename_i b s2 hw
      cases h
      rw [show s2.g = (Flow.returned b s2).sys.g from rfl,
        smartConfigWait_quiet_g E t hq _ _ _ _ hw, h1]
    · rename_i s2 hw
      rw [startSmartConfig_finish_quiet_g E t k hq enableAES fuel s2 r h,
        show s2.g = (Flow.fallthrough s2).sys.g from rfl,
        smartConfigWait_quiet_g E t hq _ _ _ _ hw, h1]

/-- The wait loop of `connectToAP` returns once the fuel covers the `int16_t` value of
`timer`: each pass of the loop takes 10 off it. -/
theorem connectToAP_wait_returns (E : Env) (t : HciTags) :
    ∀ (fuel : Nat) (timer : Int) (s : Sys), timer ≤ 32767 → timer ≤ 10 * (fuel : Int) →
      (connectToAP_wait E t fuel timer s).isSome = true := by
  intro fuel
  induction fuel with
  | zero =>
    intro timer s _ h
    have hn : ¬ timer > 0 := by simpa using h
    simp [connectToAP_wait, hn]
  | succ fuel ih =>
    intro timer s h1 h2
    simp only [connectToAP_wait]
    split
    · rename_i hc
      have hpos : timer > 0 := hc.1
      have hstep : toInt16 (timer - 10) = timer - 10 := by
        unfold toInt16
        omega
      rw [hstep]
      exact ih _ _ (by omega) (by push_cast at h2; omega)
    · rfl

/-- With the link up the wait loop of `connectToAP` is left at once, whatever the fuel. -/
theorem connectToAP_wait_linkup (E : Env) (t : HciTags) (fuel : Nat) (timer : Int) (s : Sys)
    (h : s.g.ulCC3000Connected ≠ 0) : connectToAP_wait E t fuel timer s = some (timer, s) := by
  have hc : checkConnected s = true := by simp [checkConnected, h]
  cases fuel <;> simp [connectToAP_wait, hc]

/-- One pass of `connectToAP` returns once the fuel of its wait loop covers `timer`. -/
theorem connectToAP_attempt_returns (E : Env) (t : HciTags) (k : Consts) (wfuel : Nat)
    (ssid key : List Nat) (secmode : Nat) (timer : Int) (s : Sys) (h1 : timer ≤ 32767)
    (h2 : timer ≤ 10 * (wfuel : Int)) :
    (connectToAP_attempt E t k wfuel ssid key secmode timer s).isSome = true := by
  simp only [connectToAP_attempt]
  split
  · split
    · rfl
    · exact connectToAP_wait_returns E t wfuel timer _ h1 h2
  · split
    · rfl
    · exact connectToAP_wait_returns E t wfuel timer _ h1 h2

/-- In a quiet environment, one pass of `connectToAP` entered with the link up returns,
whatever the fuel of its wait loop. -/
theorem connectToAP_attempt_linkup (E : Env) (t : HciTags) (k : Consts) (hq : E.Quiet)
    (wfuel : Nat) (ssid key : List Nat) (secmode : Nat) (timer : Int) (s : Sys)
    (h : s.g.ulCC3000Connected ≠ 0) :
    (connectToAP_attempt E t k wfuel ssid key secmode timer s).isSome = true := by
  have h3 : ((scanSSIDs E t (issue E t (scanSSIDs E t s 4000).2 (Call.delay 4500)).2 0).2).g
      = s.g := by
    rw [scanSSIDs_quiet_g E t hq, (issue_quiet_g E t hq _ _).1, scanSSIDs_quiet_g E t hq]
  simp only [connectToAP_attempt]
  split
  · split
    · rfl
    · rw [connectToAP_wait_linkup E t wfuel timer _
        (by rw [connectOpen_quiet_g E t k hq, h3]; exact h)]
      rfl
  · split
    · rfl
    · rw [connectToAP_wait_linkup E t wfuel timer _
        (by rw [connectSecure_quiet_g E t hq, h3]; exact h)]
      rfl

/-- In a quiet environment, `connectToAP` entered with the link up returns after one pass,
with the globals as they were. -/
theorem connectToAP_linkup_returns (E : Env) (t : HciTags) (k : Consts) (hq : E.Quiet)
    (wfuel fuel : Nat) (ssid key : List Nat) (secmode : Nat) (s : Sys)
    (h : s.g.ulCC3000Connected ≠ 0) (hfuel : 1 ≤ fuel) :
    ∃ s2, connectToAP E t k wfuel fuel ssid key secmode s = some s2 ∧ s2.g = s.g := by
  obtain ⟨f, rfl⟩ : ∃ f, fuel = f + 1 := ⟨fuel - 1, by omega⟩
  have hsome := connectToAP_attempt_linkup E t k hq wfuel ssid key secmode
    (toInt16 (k.WLAN_CONNECT_TIMEOUT : Int)) s h
  obtain ⟨r, hr⟩ := Option.isSome_iff_exists.mp hsome
  have hg := connectToAP_attempt_quiet_g E t k hq wfuel ssid key secmode _ s r hr
  have hc : checkConnected r.2 = true := by simp [checkConnected, hg, h]
  refine ⟨r.2, ?_, hg⟩
  simp [connectToAP, connectToAP_loop, hr, hc]

/-- In a quiet environment, `connectToAP` entered with the link down does not return:
every pass leaves the link down, so the retry loop runs until the fuel is used up. -/
theorem connectToAP_loop_linkdown (E : Env) (t : HciTags) (k : Consts) (hq : E.Quiet)
    (wfuel : Nat) (ssid key : List Nat) (secmode : Nat) :
    ∀ (fuel : Nat) (timer : Int) (s : Sys), s.g.ulCC3000Connected = 0 →
      connectToAP_loop E t k wfuel ssid key secmode fuel timer s = none := by
  intro fuel
  induction fuel with
  | zero =>
    intro timer s _
    rfl
  | succ fuel ih =>
    intro timer s h
    simp only [connectToAP_loop]
    split
    · rfl
    · rename_i r hr
      have hg := connectToAP_attempt_quiet_g E t k hq wfuel ssid key secmode timer s r hr
      have hc : checkConnected r.2 = false := by simp [checkConnected, hg, h]
      simp only [hc, Bool.not_false, if_true]
      exact ih _ _ (by rw [hg]; exact h)

/-- The disconnect loop of `startSmartConfig` is skipped when the link is not up. -/
theorem disconnectLoop_skip (E : Env) (t : HciTags) (k : Consts) (fuel : Nat) (s : Sys)
    (h : s.g.ulCC3000Connected ≠ k.WIFI_STATUS_CONNECTED) :
    disconnectLoop E t k fuel s = some (Flow.fallthrough s) := by
  cases fuel <;> simp [disconnectLoop, h]

/-- A quiet environment never provisions. -/
theorem Env.Quiet.neverProvisioned {E : Env} (hq : E.Quiet) (t : HciTags) :
    E.NeverProvisioned t := by
  intro hist c e he
  rw [hq hist c] at he
  cases he

/-- In a quiet environment the code of `startSmartConfig` before the wait always comes to
an end (the disconnect loop is skipped, because the reset has just cleared the link flag),
provided the constant `WIFI_STATUS_CONNECTED` is not 0. -/
theorem startSmartConfig_setup_returns (E : Env) (t : HciTags) (k : Consts) (hq : E.Quiet)
    (hk : k.WIFI_STATUS_CONNECTED ≠ 0) (fuel : Nat) (s : Sys) :
    (startSmartConfig_setup E t k fuel s).isSome = true := by
  simp only [startSmartConfig_setup, issue_quiet E t hq]
  split
  · rfl
  · split
    · rfl
    · split
      · rfl
      · rw [disconnectLoop_skip E t k fuel _ (fun h => hk h.symm)]
        simp only
        repeat' split
        all_goals rfl

/-- In a quiet environment `startSmartConfig` returns for every fuel of at least 6001 loop
iterations, provided the constant `WIFI_STATUS_CONNECTED` is not 0. -/
theorem startSmartConfig_returns (E : Env) (t : HciTags) (k : Consts) (hq : E.Quiet)
    (hk : k.WIFI_STATUS_CONNECTED ≠ 0) (enableAES : Bool) (fuel : Nat) (s : Sys)
    (hfuel : 6001 ≤ fuel) :
    (startSmartConfig E t k enableAES fuel s).isSome = true := by
  obtain ⟨f, hf⟩ := Option.isSome_iff_exists.mp
    (startSmartConfig_setup_returns E t k hq hk fuel s)
  cases f with
  | returned r s1 => simp [startSmartConfig, hf]
  | fallthrough s1 =>
    have h1 := startSmartConfig_setup_finished E t k (hq.neverProvisioned t) fuel s s1 hf
    obtain ⟨s2, hw, -⟩ := smartConfigWait_never E t (hq.neverProvisioned t) 6000 0 fuel s1
      (by omega) (by omega) h1
    simp only [Nat.mul_zero] at hw
    simp [startSmartConfig, hf, hw]

/-- C12, as stated, fails for three of the operations it names, each in an environment that
never dispatches an event:
* `startSmartConfig` on a controller whose link is up and that holds a DHCP lease returns
  with `ulCC3000Connected` and `ulCC3000DHCP` cleared (it assigns the shared flags on
  entry, even before it tests `_initialised`);
* `connected()` on the open socket 0, with nothing buffered, nothing readable and
  `closed_sockets[0]` set, returns false with `closed_sockets[0]` cleared;
* `ping` on an initialised controller that holds five ping reports returns with
  `pingReportnum` cleared and the `packets_received` bytes of `pingReport` cleared. -/
theorem session_state_written_counterexample :
    quietEnv.Quiet ∧
      (sysLinkUp.g.ulCC3000Connected = 1 ∧ sysLinkUp.g.ulCC3000DHCP = 1 ∧
        (startSmartConfig quietEnv sampleTags sampleConsts false 0 sysLinkUp).map
          (fun r => (r.1, r.2.g.ulCC3000Connected, r.2.g.ulCC3000DHCP)) =
            some (false, 0, 0)) ∧
      (sysClosed0.g.closed_sockets 0 = true ∧
        (Client.connected quietEnv openClient0 sysClosed0).1 = false ∧
        (Client.connected quietEnv openClient0 sysClosed0).2.2.g.closed_sockets 0 = false) ∧
      (sysPinged.g.pingReportnum = 5 ∧
        sysPinged.g.pingReport = List.replicate 20 7 ∧
        (ping quietEnv sampleTags samplePlatform sysPinged 0xC0A80001 3 500 32).2.g.pingReportnum
          = 0 ∧
        (ping quietEnv sampleTags samplePlatform sysPinged 0xC0A80001 3 500 32).2.g.pingReport
          = [7, 7, 7, 7, 0, 0, 0, 0, 7, 7, 7, 7, 7, 7, 7, 7, 7, 7, 7, 7]) := by
  refine ⟨fun _ _ => rfl, ⟨rfl, rfl, rfl⟩, ⟨rfl, ?_, ?_⟩, ⟨rfl, rfl, ?_, ?_⟩⟩
  · simp [Client.connected, Client.available, sockcall, quietEnv, openClient0, sysClosed0,
      closedGet]
  · simp [Client.connected, Client.available, sockcall, quietEnv, openClient0, sysClosed0,
      closedGet, closedSet]
  · rfl
  · rfl

/-- C12 (amended): in an environment that dispatches no asynchronous event (`E.Quiet`).

Operations that leave every global, hence the whole Session State, unchanged:
1. `connectOpen`; 2. `connectSecure`; 3. `close()`; 4. `available()`;
5. every `read()` that returns, and `read()` does return once its first refill `recv`
   reports data or the closed code;
6. `connectToAP`: every pass of its retry loop leaves the globals unchanged, and a pass
   returns once the fuel of its wait loop covers `timer`; a call entered with the link up
   returns after one pass with the globals unchanged; a call entered with the link down
   does not return (no event can raise the link), so "after the call" does not arise.

Operations that write the Session State, and exactly what they write:
7. `connected()` on a client whose socket id is inside the table (`_socket < 32`): when it
   returns true the client and the globals are unchanged; when it returns false on a
   client that is not open nothing at all changes; when it returns false on an open client
   (teardown) the entry of its own socket id, which was set, is cleared, every other
   global is unchanged, and the client is torn down;
8. `startSmartConfig`: whenever it returns, the globals are those at entry with
   `provisioningDone`, `connected`, `dhcpBound` and `safeToPowerDown` cleared; and it does
   return, for every fuel of at least 6001, when `WIFI_STATUS_CONNECTED` is not 0;
9. `ping`: on a controller that is not initialised it returns 0 and changes nothing; on an
   initialised controller the globals afterwards are those at entry with `pingReportnum`
   cleared and the `packets_received` bytes of `pingReport` cleared. -/
theorem session_state_frame (E : Env) (t : HciTags) (k : Consts) (pf : Platform)
    (hq : E.Quiet) :
    (∀ (s : Sys) (ssid : List Nat), (connectOpen E t k s ssid).2.g = s.g) ∧
    (∀ (s : Sys) (ssid key : List Nat) (secMode : Int),
      (connectSecure E t s ssid key secMode).2.g = s.g) ∧
    (∀ (c : Client) (s : Sys), (Client.close E c s).2.2.g = s.g) ∧
    (∀ (c : Client) (s : Sys), (Client.available E c s).2.g = s.g) ∧
    ((∀ (fuel : Nat) (c : Client) (s : Sys) (v : Nat) (c2 : Client) (s2 : Sys),
        Client.read E fuel c s = some (v, c2, s2) → s2.g = s.g) ∧
      (∀ (fuel : Nat) (c : Client) (s : Sys), 1 ≤ fuel →
        (E.reply s.log (Call.recv c._socket c._rx_buf.length) = -57 ∨
          0 < E.reply s.log (Call.recv c._socket c._rx_buf.length)) →
        (Client.read E fuel c s).isSome = true)) ∧
    ((∀ (wfuel : Nat) (ssid key : List Nat) (secmode : Nat) (timer : Int) (s : Sys)
          (r : Int × Sys),
        connectToAP_attempt E t k wfuel ssid key secmode timer s = some r → r.2.g = s.g) ∧
      (∀ (wfuel : Nat) (ssid key : List Nat) (secmode : Nat) (timer : Int) (s : Sys),
        timer ≤ 32767 → timer ≤ 10 * (wfuel : Int) →
        (connectToAP_attempt E t k wfuel ssid key secmode timer s).isSome = true) ∧
      (∀ (wfuel fuel : Nat) (ssid key : List Nat) (secmode : Nat) (s s2 : Sys),
        connectToAP E t k wfuel fuel ssid key secmode s = some s2 → s2.g = s.g) ∧
      (∀ (wfuel fuel : Nat) (ssid key : List Nat) (secmode : Nat) (s : Sys),
        s.g.ulCC3000Connected ≠ 0 → 1 ≤ fuel →
        ∃ s2, connectToAP E t k wfuel fuel ssid key secmode s = some s2 ∧ s2.g = s.g) ∧
      (∀ (wfuel fuel : Nat) (ssid key : List Nat) (secmode : Nat) (s : Sys),
        s.g.ulCC3000Connected = 0 →
        connectToAP E t k wfuel fuel ssid key secmode s = none)) ∧
    (∀ (c : Client) (s : Sys), c._socket < 32 →
      ((Client.connected E c s).1 = true →
        (Client.connected E c s).2.1 = c ∧ (Client.connected E c s).2.2.g = s.g) ∧
      ((Client.connected E c s).1 = false → c._socket < 0 →
        Client.connected E c s = (false, c, s)) ∧
      ((Client.connected E c s).1 = false → 0 ≤ c._socket →
        ∃ h : c._socket.toNat < 32,
          s.g.closed_sockets ⟨c._socket.toNat, h⟩ = true ∧
          (Client.connected E c s).2.1 = { c with _socket := -1 } ∧
          (Client.connected E c s).2.2.g =
            { s.g with closed_sockets :=
                Function.update s.g.closed_sockets ⟨c._socket.toNat, h⟩ false })) ∧
    ((∀ (enableAES : Bool) (fuel : Nat) (s : Sys) (r : Bool × Sys),
        startSmartConfig E t k enableAES fuel s = some r → r.2.g = smartConfigReset s.g) ∧
      (∀ (enableAES : Bool) (fuel : Nat) (s : Sys), k.WIFI_STATUS_CONNECTED ≠ 0 →
        6001 ≤ fuel → (startSmartConfig E t k enableAES fuel s).isSome = true)) ∧
    ((∀ (s : Sys) (ip attempts timeout size : Nat), s._initialised = false →
        ping E t pf s ip attempts timeout size = (0, s)) ∧
      (∀ (s : Sys) (ip attempts timeout size : Nat), s._initialised = true →
        (ping E t pf s ip attempts timeout size).2.g =
          { s.g with pingReportnum := 0,
                     pingReport := zeroField pf.recvOff pf.recvLen s.g.pingReport })) := by
  have havail : ∀ (c : Client) (s : Sys), (Client.available E c s).2.g = s.g := by
    intro c s
    simp only [Client.available, sockcall]
    repeat' split
    all_goals rfl
  refine ⟨?_, ?_, ?_, havail, ⟨?_, ?_⟩, ⟨?_, ?_, ?_, ?_, ?_⟩, ?_, ⟨?_, ?_⟩, ⟨?_, ?_⟩⟩
  · exact fun s ssid => connectOpen_quiet_g E t k hq s ssid
  · exact fun s ssid key secMode => connectSecure_quiet_g E t hq s ssid key secMode
  · intro c s
    rfl
  · intro fuel c s v c2 s2 h
    exact (read_frame E fuel c s v c2 s2 h).1
  · intro fuel c s hfuel h
    exact read_returns E fuel c s hfuel h
  · intro wfuel ssid key secmode timer s r h
    exact connectToAP_attempt_quiet_g E t k hq wfuel ssid key secmode timer s r h
  · intro wfuel ssid key secmode timer s h1 h2
    exact connectToAP_attempt_returns E t k wfuel ssid key secmode timer s h1 h2
  · intro wfuel fuel ssid key secmode s s2 h
    exact connectToAP_loop_quiet_g E t k hq wfuel ssid key secmode fuel _ s s2 h
  · intro wfuel fuel ssid key secmode s h hfuel
    exact connectToAP_linkup_returns E t k hq wfuel fuel ssid key secmode s h hfuel
  · intro wfuel fuel ssid key secmode s h
    exact connectToAP_loop_linkdown E t k hq wfuel ssid key secmode fuel _ s h
  · intro c s hlt
    by_cases hneg : c._socket < 0
    · have hres : Client.connected E c s = (false, c, s) := by
        simp [Client.connected, hneg]
      refine ⟨?_, fun _ _ => hres, ?_⟩
      · intro h
        rw [hres] at h
        cases h
      · intro _ h0
        omega
    · by_cases hc : (Client.available E c s).1 = 0 ∧
          closedGet (Client.available E c s).2.g.closed_sockets c._socket.toNat = true
      · have hn : c._socket.toNat < 32 := by omega
        have hcl : closedGet s.g.closed_sockets c._socket.toNat = true := by
          have h2 := hc.2
          rw [havail c s] at h2
          exact h2
        have hres : Client.connected E c s =
            (false, { c with _socket := -1 },
              { (sockcall E (Client.available E c s).2 (Call.closesocket c._socket)).2 with
                g := { s.g with closed_sockets :=
                  Function.update s.g.closed_sockets ⟨c._socket.toNat, hn⟩ false } }) := by
          simp [Client.connected, hneg, hc.1, hcl, sockcall, havail c s, closedSet, hn]
        refine ⟨?_, ?_, ?_⟩
        · intro h
          rw [hres] at h
          cases h
        · intro _ h0
          exact absurd h0 hneg
        · intro _ _
          refine ⟨hn, ?_, ?_, ?_⟩
          · simpa [closedGet, hn] using hcl
          · rw [hres]
          · rw [hres]
      · have hres : Client.connected E c s = (true, c, (Client.available E c s).2) := by
          simp only [Client.connected, hneg, if_false, hc]
        refine ⟨?_, ?_, ?_⟩
        · intro _
          rw [hres]
          exact ⟨rfl, havail c s⟩
        · intro h
          rw [hres] at h
          cases h
        · intro h
          rw [hres] at h
          cases h
  · intro enableAES fuel s r h
    exact startSmartConfig_quiet_g E t k hq enableAES fuel s r h
  · intro enableAES fuel s hk hfuel
    exact startSmartConfig_returns E t k hq hk enableAES fuel s hfuel
  · intro s ip attempts timeout size hi
    simp [ping, hi]
  · intro s ip attempts timeout size hi
    simp only [ping, issue_quiet E t hq, hi]
    simp only [Bool.not_true, Bool.false_eq_true, if_false]
    split <;> rfl

/-- Witness for C12 (amended): on a chip that accepts every command and raises no event,
`connectSecure` with valid arguments issues its commands and leaves the globals alone;
`ping` on an initialised controller clears the report counter; `connected()` on socket 0
with the peer closed clears the table entry of socket 0. -/
theorem session_state_frame_witness :
    (connectSecure quietEnv sampleTags sys0 [0x41] [0x42] 3).2.g = sys0.g ∧
      (connectSecure quietEnv sampleTags sys0 [0x41] [0x42] 3).1 = true ∧
      (ping quietEnv sampleTags samplePlatform sysPinged 0xC0A80001 3 500 32).2.g =
        { sysPinged.g with pingReportnum := 0,
                           pingReport := zeroField 4 4 sysPinged.g.pingReport } ∧
      ∃ h : openClient0._socket.toNat < 32,
        (Client.connected quietEnv openClient0 sysClosed0).2.2.g =
          { sysClosed0.g with
            closed_sockets :=
              Function.update sysClosed0.g.closed_sockets ⟨openClient0._socket.toNat, h⟩
                false } := by
  have hT := session_state_frame quietEnv sampleTags sampleConsts samplePlatform
    (fun _ _ => rfl)
  have hfalse : (Client.connected quietEnv openClient0 sysClosed0).1 = false := by
    simp [Client.connected, Client.available, sockcall, quietEnv, openClient0, sysClosed0,
      closedGet]
  obtain ⟨h, -, -, hg⟩ :=
    (hT.2.2.2.2.2.2.1 openClient0 sysClosed0 (by decide)).2.2 hfalse (by decide)
  exact ⟨hT.2.1 sys0 [0x41] [0x42] 3, rfl,
    hT.2.2.2.2.2.2.2.2.2 sysPinged 0xC0A80001 3 500 32 rfl, h, hg⟩

end CC3000
